import Mathlib

/-!
A verification development for the `serializable` Python library
(`src/serializable/__init__.py`): a metadata-driven bidirectional
object ⇄ JSON/XML mapper.

The development shallowly embeds the data model and the codec algorithms:

* `PyVal` models Python runtime values (the object graphs being encoded),
  `JValue` models JSON documents, `XmlElement` models `ElementTree.Element`.
* Dictionaries are association lists with Python `dict` semantics
  (`pyDictSet` replaces in place, `pyDictDel` removes, insertion order kept).
* `Formatter` models the pluggable property-name formatter
  (`CurrentFormatter.formatter`), which lives outside the sources.
* The legacy class-method configuration surface
  (`get_property_key_mappings`, `get_property_data_class_mappings`,
  `get_array_property_configuration`, `get_json_key_removals`,
  `properties_as_attributes`) is bundled into `ClassDef`.
* The registry (`ObjectMetadataLibrary`) is modelled by `Registry`
  plus `RegState` for the registration claims.

Methods of collaborating classes that are reached through Python duck
typing (`klass.from_json`, `klass.from_xml`, `klass.deserialize`,
`klass(...)`) are modelled as optional function fields of `MappedKlass`:
in Python these are attributes carried by the class object, and the
decoders only ever invoke them through `getattr`.
-/

set_option linter.unusedVariables false

namespace Serializable

/-! ## String utilities mirroring the Python primitives used by the code -/

/-- Membership of `pat` as a contiguous substring of `s`
(Python `pat in s`), on character lists. -/
def listContainsAux (pat : List Char) : List Char → Bool
  | [] => pat.isEmpty
  | c :: rest => pat.isPrefixOf (c :: rest) || listContainsAux pat rest

/-- Python `pat in s` for strings. -/
def strContains (s pat : String) : Bool :=
  listContainsAux pat.data s.data

/-- One pass of Python `str.replace(old, "")`: scan left to right and
drop every non-overlapping occurrence of `old`.  (The `old.isEmpty`
branch is unreachable: `pyReplace` only calls this with a nonempty
pattern; it is present to make termination evident.) -/
def replAux (old : List Char) : List Char → List Char
  | [] => []
  | c :: rest =>
    if hemp : old.isEmpty then c :: rest
    else if old.isPrefixOf (c :: rest) then
      replAux old ((c :: rest).drop old.length)
    else
      c :: replAux old rest
  termination_by s => s.length
  decreasing_by
    · simp only [List.length_drop]
      have hne : old ≠ [] := by
        intro hnil
        rw [hnil] at hemp
        simp at hemp
      have : 0 < old.length := List.length_pos.mpr hne
      simp only [List.length_cons]
      omega
    · simp

/-- Python `s.replace(old, "")` (the only replacement form the code uses:
stripping a `\x7bnamespace\x7d` prefix from tag names).  When `old` is empty
Python would interleave empty insertions; the code never does that, and we
return `s` unchanged in that case. -/
def pyReplace (s old : String) : String :=
  if old.data.isEmpty then s else String.mk (replAux old.data s.data)

/-- Python `s[1:]`. -/
def pyTail (s : String) : String :=
  String.mk s.data.tail

/-- Python `s.startswith('_')`. -/
def startsWithUnderscore (s : String) : Bool :=
  match s.data with
  | [] => false
  | c :: _ => c == '_'

/-- Python `s.lower()` (ASCII). -/
def pyLower (s : String) : String :=
  String.mk (s.data.map Char.toLower)

/-- Python `s.strip()`: remove leading and trailing whitespace. -/
def pyStrip (s : String) : String :=
  String.mk (((s.data.dropWhile Char.isWhitespace).reverse.dropWhile
    Char.isWhitespace).reverse)

/-- Python `str.isdigit()` restricted to ASCII digits: nonempty and all
characters are digits. -/
def pyIsDigit (s : String) : Bool :=
  !s.data.isEmpty && s.data.all Char.isDigit

/-- The numeric value of an all-digit string. -/
def digitsToNat (s : String) : Nat :=
  s.data.foldl (fun n c => n * 10 + (c.toNat - '0'.toNat)) 0

/-- Python `int(s)` on an all-digit string. -/
def pyToInt (s : String) : Int :=
  Int.ofNat (digitsToNat s)

/-! ## Python values, JSON values and XML elements -/

/-- Model of the Python runtime values the codecs traverse.
`vObj` carries the class's module, class name and the instance
`__dict__` (keys retain their leading underscore, as in the source).
`vEnum` keeps the enum class name and the member's underlying `.value`.
`vDict` is a plain dict as produced by JSON parsing. -/
inductive PyVal where
  | vNone
  | vBool (b : Bool)
  | vInt (n : Int)
  | vStr (s : String)
  | vEnum (enumName : String) (val : PyVal)
  | vList (xs : List PyVal)
  | vSet (xs : List PyVal)
  | vDict (entries : List (String × PyVal))
  | vObj (module : String) (clsName : String) (dict : List (String × PyVal))
deriving Repr

/-- JSON documents (the output of `json.dumps` seen as a tree). -/
inductive JValue where
  | jnull
  | jbool (b : Bool)
  | jint (n : Int)
  | jstr (s : String)
  | jarr (xs : List JValue)
  | jobj (fields : List (String × JValue))
deriving Repr

/-- Model of `xml.etree.ElementTree.Element`: a tag, ordered attributes,
optional text and ordered children. -/
structure XmlElement where
  tag : String
  attrib : List (String × String)
  text : Option String
  children : List XmlElement
deriving Repr

/-- Python `str(x)`.  Faithful on the values the codecs stringify
(`None`, `bool`, `int`, `str`); composite values are given placeholder
renderings (no claim exercises them: the code only calls `str` on
primitives, on enum `.value`s — themselves primitives here — and on
attribute values). -/
def pyStr : PyVal → String
  | .vNone => "None"
  | .vBool true => "True"
  | .vBool false => "False"
  | .vInt n => toString n
  | .vStr s => s
  | .vEnum n _ => n
  | .vList _ => "[python list]"
  | .vSet _ => "[python set]"
  | .vDict _ => "[python dict]"
  | .vObj _ c _ => "[" ++ c ++ " object]"

/-- `str(element.text)`: `None` renders as the string `"None"`. -/
def pyStrOfText : Option String → String
  | none => "None"
  | some s => s

/-- An `ElementTree` text value as a Python value
(`None` stays `None`, text stays a string). -/
def textToPy : Option String → PyVal
  | none => .vNone
  | some s => .vStr s

/-- Truthiness of `element.text` (`if data.text:`). -/
def textTruthy : Option String → Bool
  | none => false
  | some s => !s.data.isEmpty

/-! ## Python `dict` semantics on association lists -/

/-- `d[k]` lookup. -/
def pyDictGet (d : List (String × α)) (k : String) : Option α :=
  (d.find? (fun p => p.1 == k)).map (·.2)

/-- `k in d`. -/
def pyDictHas (d : List (String × α)) (k : String) : Bool :=
  d.any (fun p => p.1 == k)

/-- `d[k] = v`: replace in place if the key exists, else append
(Python dicts keep insertion order). -/
def pyDictSet (d : List (String × α)) (k : String) (v : α) : List (String × α) :=
  if pyDictHas d k then
    d.map (fun p => if p.1 == k then (k, v) else p)
  else
    d ++ [(k, v)]

/-- `del d[k]` (a no-op when the key is absent; the decode loops only
delete keys they have just looked up). -/
def pyDictDel (d : List (String × α)) (k : String) : List (String × α) :=
  d.filter (fun p => p.1 != k)

/-- `list(d.values()).index(x)` followed by `list(d.keys())[...]`:
the first key of `d` whose value equals `x`. -/
def pyReverseLookup (d : List (String × String)) (x : String) : Option String :=
  (d.find? (fun p => p.2 == x)).map (·.1)

/-- `x in d.values()`. -/
def pyValuesContain (d : List (String × String)) (x : String) : Bool :=
  d.any (fun p => p.2 == x)

/-! ## The name formatter, serialization formats and property metadata -/

/-- The pluggable property-name formatter.  The module
`serializable.formatters` is imported by the source but is not part of
the sources given here; per the specification it is a pair of pure
string transforms with `decode (encode x) = x` on registered property
identifiers.  Theorems state the exact round-trip facts they need as
hypotheses.  `CurrentFormatter.formatter` is always set, so the
truthiness guards `if CurrentFormatter.formatter:` are modelled as true. -/
structure Formatter where
  encode : String → String
  decode : String → String

/-- The identity formatter: a valid formatter (it satisfies
`decode (encode x) = x`), used by concrete witnesses. -/
def idFormatter : Formatter := ⟨id, id⟩

/-- `SerializationType`. -/
inductive SerializationType where
  | json
  | xml
deriving DecidableEq, Repr

/-- `XmlArraySerializationType`. -/
inductive XmlArraySerializationType where
  | flat
  | nested
deriving DecidableEq, Repr

/-- Model of the Python type annotation stored in
`SerializableProperty._type_` (`prop_arg_specs.annotations.get('return', None)`).
`listT` covers both `List[...]` and `Set[...]` (the code only inspects
`__name__ in ('List', 'Set')` and `__args__`); `noneT` is a missing
annotation (`None`). -/
inductive PyType where
  | boolT
  | intT
  | floatT
  | strT
  | enumT (name : String)
  | classT (name : String)
  | listT (item : PyType)
  | optionalT (inner : PyType)
  | noneT
deriving DecidableEq, Repr

namespace PyType

/-- `SerializableProperty.is_optional`: `self.type_.__name__ == 'Optional'`. -/
def isOptional : PyType → Bool
  | .optionalT _ => true
  | _ => false

/-- `SerializableProperty.concrete_type`. -/
def concreteType : PyType → PyType
  | .optionalT (.listT t) => t
  | .optionalT t => t
  | .listT t => t
  | t => t

/-- `SerializableProperty.is_array`. -/
def isArray : PyType → Bool
  | .optionalT (.listT _) => true
  | .optionalT _ => false
  | .listT _ => true
  | _ => false

/-- `SerializableProperty.is_enum`: the concrete type's metaclass is
`enum.EnumMeta`. -/
def isEnum (t : PyType) : Bool :=
  match t.concreteType with
  | .enumT _ => true
  | _ => false

/-- `SerializableProperty.is_primitive_type`:
`concrete_type() in (bool, int, float, str)`. -/
def isPrimitiveType (t : PyType) : Bool :=
  match t.concreteType with
  | .boolT | .intT | .floatT | .strT => true
  | _ => false

end PyType

/-- A custom type registered for a property
(`ObjectMetadataLibrary._klass_property_types`).  `codecC` is a class
with a `serialize(value) -> str` classmethod; `callC` is any other
callable: `DefaultJsonEncoder` calls it and serializes its result, which
the model represents directly by the result's JSON image (no claim
exercises custom types). -/
inductive CustomType where
  | codecC (ser : PyVal → String)
  | callC (jsonImage : PyVal → JValue)

/-- `ObjectMetadataLibrary.SerializableProperty`. -/
structure SerializableProperty where
  name : String
  customNames : List (SerializationType × String)
  type_ : PyType
  customType : Option CustomType
  isXmlAttribute : Bool
  xmlArrayConfig : Option (XmlArraySerializationType × String)

/-- `SerializableProperty.custom_name(serialization_type)`:
`self.custom_names.get(serialization_type, None)`. -/
def SerializableProperty.customName (p : SerializableProperty)
    (st : SerializationType) : Option String :=
  (p.customNames.find? (fun q => q.1 == st)).map (·.2)

/-- `ObjectMetadataLibrary.klass_property_mappings`: fully-qualified class
name to (property name ↦ property metadata). -/
def Registry := List (String × List (String × SerializableProperty))

/-- `klass_property_mappings.get(qualified_name, \x7b\x7d)`. -/
def Registry.props (reg : Registry) (qualifiedName : String) :
    List (String × SerializableProperty) :=
  (pyDictGet reg qualifiedName).getD []

/-! ## Collaborating classes reached through duck typing

The decoders dispatch on `inspect.isclass(klass)` and
`callable(getattr(klass, "from_json" / "from_xml" / "deserialize" / "as_xml", None))`
and then invoke the attribute.  A `MappedKlass` carries those attributes
as optional function fields, plus the plain call `klass(...)`. -/

structure MappedKlass where
  /-- `inspect.isclass(klass)` -/
  isClass : Bool
  /-- the `from_json` classmethod, when present -/
  fromJsonF : Option (List (String × PyVal) → Except String PyVal)
  /-- the `from_xml` classmethod, when present -/
  fromXmlF : Option (XmlElement → Option String → Except String PyVal)
  /-- the `deserialize` classmethod, when present -/
  deserializeF : Option (PyVal → PyVal)
  /-- the `serialize` classmethod, when present -/
  serializeF : Option (PyVal → String)
  /-- `callable(getattr(klass, "as_xml", None))` -/
  hasAsXml : Bool
  /-- the plain call `klass(v)` -/
  callF : PyVal → PyVal

/-- A mapped klass with no serialization capabilities
(a plain callable such as an enum constructor). -/
def MappedKlass.plain (f : PyVal → PyVal) : MappedKlass :=
  ⟨true, none, none, none, none, false, f⟩

/-- A target type together with its legacy configuration surface:
`__name__`, the constructor parameter names, and the
`SerializableObject` class methods
(`get_property_key_mappings` maps wire names to Python property names,
`get_property_data_class_mappings`, `get_array_property_configuration`,
`get_json_key_removals`, `properties_as_attributes`) as well as the
names present in `cls.__dict__` for the decode fallback branch. -/
structure ClassDef where
  module : String
  name : String
  fields : List String
  keyMappings : List (String × String)
  dataClassMappings : List (String × MappedKlass)
  arrayConfig : List (String × (XmlArraySerializationType × String × MappedKlass))
  jsonKeyRemovals : List String
  propsAsAttributes : List String
  classDict : List String
  /-- whether instances of the class answer `getattr(o, "as_xml", None)`
  with a callable (`XmlSerializableObject` subclasses) -/
  hasAsXml : Bool

/-- A `ClassDef` with an empty configuration (all the
`SerializableObject` hooks at their defaults). -/
def ClassDef.simple (module name : String) (fields : List String) : ClassDef :=
  ⟨module, name, fields, [], [], [], [], [], [], false⟩

/-- Modelled from the spec: the "canonical constructor" of a registered
type (§3: decode "constructs a brand-new instance per call via the
type's canonical constructor, passed a key/value map") — the user-defined
`__init__` methods are not part of the sources.  The keyword arguments
must be exactly the declared fields; each value is stored in
`self._<field>`; a missing or unexpected keyword is the host language's
own argument error. -/
def pyCtor (cls : ClassDef) (kwargs : List (String × PyVal)) : Except String PyVal :=
  match kwargs.find? (fun p => !(cls.fields.contains p.1)) with
  | some p => .error ("TypeError: __init__() got an unexpected keyword argument " ++ p.1)
  | none =>
    match cls.fields.find? (fun f => !(pyDictHas kwargs f)) with
    | some f => .error ("TypeError: __init__() missing required argument " ++ f)
    | none => .ok (.vObj cls.module cls.name
        (cls.fields.map fun f => ("_" ++ f, (pyDictGet kwargs f).getD .vNone)))

/-! ## JSON encoding: `_as_json` / `DefaultJsonEncoder.default`

`_as_json` is `json.dumps(self, cls=DefaultJsonEncoder)`.  `json.dumps`
serializes primitives, lists and dicts natively and calls
`DefaultJsonEncoder.default` on everything else: enums become their
`.value`, sets become lists, and objects become a dict built from
`o.__dict__` — skipping `None` values, stripping the leading underscore,
applying the registered custom JSON name and custom type, encoding the
key through the formatter *inside* the property-info branch and then a
second time unconditionally, and finally `d.update(...)`. -/

/-- One `o.__dict__` entry of `DefaultJsonEncoder.default`, reduced to
`none` (skipped) or `some (finalKey, jsonValue)`.  `encoded` is the
serialization of `v` itself, used when no custom type replaces the value
(it is the recursive call of the encoder, evaluated at the call site). -/
def jsonDefaultEntry (fmt : Formatter) (props : List (String × SerializableProperty))
    (k : String) (v : PyVal) (encoded : JValue) : Option (String × JValue) :=
  match v with
  | .vNone => none
  | _ =>
    let newKey := pyTail k
    if startsWithUnderscore newKey || strContains newKey "__" then none
    else
      match pyDictGet props newKey with
      | some propInfo =>
        -- `if prop_info.custom_name(JSON):` — `None` and `''` are falsy
        let k1 := match propInfo.customName .json with
          | some cn => if cn.data.isEmpty then newKey else cn
          | none => newKey
        let k2 := fmt.encode k1
        let jv := match propInfo.customType with
          | some (.codecC ser) => JValue.jstr (ser v)
          | some (.callC f) => f v
          | none => encoded
        -- the second, unconditional `CurrentFormatter.formatter.encode`
        some (fmt.encode k2, jv)
      | none => some (fmt.encode newKey, encoded)

/-- One `d.update(\x7bnew_key: v\x7d)` step of the object encoder
(skipped entries leave `d` unchanged). -/
def jsonAssembleStep (d : List (String × JValue)) (e : Option (String × JValue)) :
    List (String × JValue) :=
  match e with
  | none => d
  | some (key, jv) => pyDictSet d key jv

/-- Assemble the entries with `d.update(\x7bnew_key: v\x7d)` semantics. -/
def jsonAssembleDict (entries : List (Option (String × JValue))) : List (String × JValue) :=
  entries.foldl jsonAssembleStep []

/-- `json.dumps(·, cls=DefaultJsonEncoder)` as a tree transformation. -/
def encodeJson (reg : Registry) (fmt : Formatter) : PyVal → JValue
  | .vNone => .jnull
  | .vBool b => .jbool b
  | .vInt n => .jint n
  | .vStr s => .jstr s
  | .vEnum _ val => encodeJson reg fmt val
  | .vList xs => .jarr (xs.attach.map fun x => encodeJson reg fmt x.1)
  | .vSet xs => .jarr (xs.attach.map fun x => encodeJson reg fmt x.1)
  | .vDict es => .jobj (es.attach.map fun p => (p.1.1, encodeJson reg fmt p.1.2))
  | .vObj m c dict =>
    let props := Registry.props reg (m ++ "." ++ c)
    .jobj (jsonAssembleDict (dict.attach.map fun kv =>
      jsonDefaultEntry fmt props kv.1.1 kv.1.2 (encodeJson reg fmt kv.1.2)))
  termination_by v => sizeOf v
  decreasing_by
    all_goals simp_wf
    all_goals
      first
        | omega
        | (have h1 := List.sizeOf_lt_of_mem x.2
           omega)
        | (obtain ⟨⟨a, b⟩, hm⟩ := p
           have h1 := List.sizeOf_lt_of_mem hm
           simp only [Prod.mk.sizeOf_spec] at h1
           simp only
           omega)
        | (obtain ⟨⟨a, b⟩, hm⟩ := kv
           have h1 := List.sizeOf_lt_of_mem hm
           simp only [Prod.mk.sizeOf_spec] at h1
           simp only
           omega)

/-- The Python value produced by parsing a JSON document
(`json.loads`: objects become dicts, arrays become lists). -/
def jvalToPy : JValue → PyVal
  | .jnull => .vNone
  | .jbool b => .vBool b
  | .jint n => .vInt n
  | .jstr s => .vStr s
  | .jarr xs => .vList (xs.attach.map fun x => jvalToPy x.1)
  | .jobj fs => .vDict (fs.attach.map fun p => (p.1.1, jvalToPy p.1.2))
  termination_by v => sizeOf v
  decreasing_by
    all_goals simp_wf
    all_goals
      first
        | (have h1 := List.sizeOf_lt_of_mem x.2
           omega)
        | (obtain ⟨⟨a, b⟩, hm⟩ := p
           have h1 := List.sizeOf_lt_of_mem hm
           simp only [Prod.mk.sizeOf_spec] at h1
           simp only
           omega)

/-! ## JSON decoding: `_from_json`

`_from_json(cls, data)` runs two passes over the parsed JSON dict:
a key-normalization pass (removals, custom key mappings, formatter
decode) and a value-decoding pass (data class mappings, array
configuration), and then calls `cls(**_data)`. -/

/-- One iteration of the key-normalization pass of `_from_json`:
drop removed keys; otherwise delete `k` from the working dict and
re-insert `v` under the custom-mapped or formatter-decoded key. -/
def fromJsonStep1Entry (fmt : Formatter) (cls : ClassDef)
    (d : List (String × PyVal)) (kv : String × PyVal) : List (String × PyVal) :=
  let k := kv.1
  let v := kv.2
  if cls.jsonKeyRemovals.contains k then
    pyDictDel d k
  else
    let decodedK := fmt.decode k
    if pyValuesContain cls.keyMappings decodedK then
      let mappedK := (pyReverseLookup cls.keyMappings decodedK).getD decodedK
      let mappedK := if mappedK == "." then decodedK else mappedK
      pyDictSet (pyDictDel d k) mappedK v
    else
      pyDictSet (pyDictDel d k) decodedK v

/-- The key-normalization pass: `_data = copy(data)` then the entry
step for each `(k, v)` of the *original* `data`. -/
def fromJsonStep1 (fmt : Formatter) (cls : ClassDef)
    (data : List (String × PyVal)) : List (String × PyVal) :=
  data.foldl (fromJsonStep1Entry fmt cls) data

/-- Decoding one value through a property data-class mapping:
`from_json` if the mapped klass is a class providing it, else
`deserialize` if provided, else a plain call. -/
def mappedDecodeJson (klass : MappedKlass) (j : PyVal) : Except String PyVal :=
  if klass.isClass then
    match klass.fromJsonF with
    | some f =>
      match j with
      | .vDict entries => f entries
      | _ => .error "TypeError: from_json expects a dict"
    | none =>
      match klass.deserializeF with
      | some g => .ok (g j)
      | none => .ok (klass.callF j)
  else .ok (klass.callF j)

/-- Decoding one array item through an array configuration's item type:
`from_json` if provided by a class, else a plain call (no `deserialize`
fallback on this path). -/
def arrayDecodeJson (klass : MappedKlass) (j : PyVal) : Except String PyVal :=
  if klass.isClass then
    match klass.fromJsonF with
    | some f =>
      match j with
      | .vDict entries => f entries
      | _ => .error "TypeError: from_json expects a dict"
    | none => .ok (klass.callF j)
  else .ok (klass.callF j)

/-- Decoding the value of one normalized-dict entry of `_from_json`:
through `get_property_data_class_mappings` (lists and sets item-wise,
producing a list) or, failing that, through
`get_array_property_configuration` (only when the value is a list or
set); other values pass through unchanged. -/
def fromJsonValue (cls : ClassDef) (k : String) (v : PyVal) :
    Except String PyVal :=
  match pyDictGet cls.dataClassMappings k with
  | some klass =>
    match v with
    | .vList xs => (xs.mapM (mappedDecodeJson klass)).map fun items => .vList items
    | .vSet xs => (xs.mapM (mappedDecodeJson klass)).map fun items => .vList items
    | _ => mappedDecodeJson klass v
  | none =>
    match pyDictGet cls.arrayConfig k with
    | some cfg =>
      match v with
      | .vList xs => (xs.mapM (arrayDecodeJson cfg.2.2)).map fun items => .vList items
      | .vSet xs => (xs.mapM (arrayDecodeJson cfg.2.2)).map fun items => .vList items
      | _ => .ok v
    | none => .ok v

/-- The value-decoding pass, entry by entry (keys are unchanged; the
first failing entry aborts the decode, as the raised exception does). -/
def fromJsonStep2 (cls : ClassDef) :
    List (String × PyVal) → Except String (List (String × PyVal))
  | [] => .ok []
  | kv :: rest =>
    match fromJsonValue cls kv.1 kv.2 with
    | .error msg => .error msg
    | .ok w =>
      match fromJsonStep2 cls rest with
      | .error msg => .error msg
      | .ok rest' => .ok ((kv.1, w) :: rest')

/-- `_from_json(cls, data)`. -/
def fromJson (fmt : Formatter) (cls : ClassDef)
    (data : List (String × PyVal)) : Except String PyVal :=
  (fromJsonStep2 cls (fromJsonStep1 fmt cls data)).bind (pyCtor cls)

/-- `cls.from_json(json.loads(o.as_json()))`: encode `o` with the
registry-driven JSON encoder, parse the document back to Python values,
and decode it with `_from_json`. -/
def jsonRoundTrip (reg : Registry) (fmt : Formatter) (cls : ClassDef)
    (o : PyVal) : Except String PyVal :=
  match encodeJson reg fmt o with
  | .jobj kvs => fromJson fmt cls (kvs.map fun p => (p.1, jvalToPy p.2))
  | _ => .error "TypeError: JSON document is not an object"

/-! ## XML encoding

Both XML encoders iterate `self.__dict__` twice: an attribute pass that
builds the root element's attribute dict (with **no** `None` skip), and
an element pass (which skips `None` values) in which each entry
contributes one of: nothing, the root's text (sentinel name `.`), one
child element, or — for a `FLAT` array — several children appended
directly to the root.  The contribution of one entry is an `XmlPiece`;
contributions are folded into the root element in iteration order, and a
raised exception aborts the whole encode. -/

inductive XmlPiece where
  | skip
  | setText (s : String)
  | addChild (e : XmlElement)
  | addChildren (es : List XmlElement)

/-- Fold the element-pass contributions into the root element. -/
def assemblePieces (rootTag : String) (attrs : List (String × String))
    (pieces : List (Except String XmlPiece)) : Except String XmlElement :=
  pieces.foldl
    (fun acc pc =>
      match acc with
      | .error msg => .error msg
      | .ok e =>
        match pc with
        | .error msg => .error msg
        | .ok .skip => .ok e
        | .ok (.setText s) => .ok { e with text := some s }
        | .ok (.addChild c) => .ok { e with children := e.children ++ [c] }
        | .ok (.addChildren cs) => .ok { e with children := e.children ++ cs })
    (.ok ⟨rootTag, attrs, none, []⟩)

/-- `element_name or CurrentFormatter.formatter.encode(name)`:
Python `or` falls through on `None` and on the empty string. -/
def resolveRootTag (fmt : Formatter) (elementName : Option String)
    (name : String) : String :=
  match elementName with
  | some n => if n.data.isEmpty then fmt.encode name else n
  | none => fmt.encode name


/-- The attribute pass of `_as_xml` (`Handle any Properties that should
be attributes`): iterates `self.__dict__` with *no* `None` skip. -/
def asXmlAttrsPass (fmt : Formatter)
    (props : List (String × SerializableProperty))
    (dict : List (String × PyVal)) : List (String × String) :=
  dict.foldl
    (fun acc kv =>
      let newKey := pyTail kv.1
      if startsWithUnderscore newKey || strContains newKey "__" then acc
      else
        match pyDictGet props newKey with
        | some propInfo =>
          if propInfo.isXmlAttribute then
            let nk := (propInfo.customName .xml).getD newKey
            pyDictSet acc (fmt.encode nk) (pyStr kv.2)
          else acc
        | none => acc) []

/-- Rendering of one primitive-typed array item in `_as_xml`:
`float`/`int` via `str`, `bool` via `str(j).lower()`, else `str`. -/
def renderArrayItem (propInfo : SerializableProperty) (nestedKey : String)
    (j : PyVal) : XmlElement :=
  if propInfo.type_.concreteType == .floatT
      || propInfo.type_.concreteType == .intT then
    ⟨nestedKey, [], some (pyStr j), []⟩
  else if propInfo.type_.concreteType == .boolT then
    ⟨nestedKey, [], some (pyLower (pyStr j)), []⟩
  else
    ⟨nestedKey, [], some (pyStr j), []⟩

/-- The element-pass dispatch of `_as_xml` for one property once its
`SerializableProperty` has been found: custom XML name, sentinel `.`,
custom type, array (placement from `xml_array_config`, which fails by
unpacking `None` when absent), enum, nested object, and the primitive
branches (`bool` lowercased, others via `str`).  `recNested` encodes
the value itself under a given element name (`v.as_xml(...)`);
`recItems` encodes the value's items given the configured child tag. -/
def asXmlEntryCore (fmt : Formatter) (propInfo : SerializableProperty)
    (newKey : String) (v : PyVal)
    (recNested : String → Except String XmlElement)
    (recItems : String → Except String (List XmlElement)) :
    Except String XmlPiece :=
  if propInfo.isXmlAttribute then .ok .skip
  else
    let nk := (propInfo.customName .xml).getD newKey
    if nk == "." then .ok (.setText (pyStr v))
    else
      let nk := fmt.encode nk
      match propInfo.customType with
      | some (.codecC ser) => .ok (.addChild ⟨nk, [], some (ser v), []⟩)
      | some (.callC _) =>
        .error "AttributeError: custom type has no serialize attribute"
      | none =>
        -- `prop_info.is_array()` dereferences `type_.__name__`
        if propInfo.type_ == .noneT then
          .error "AttributeError: NoneType has no attribute __name__"
        else if propInfo.type_.isArray then
          match propInfo.xmlArrayConfig with
          | none =>
            -- `_array_type, nested_key = prop_info.xml_array_config`
            .error "TypeError: cannot unpack non-iterable NoneType object"
          | some (arrayType, nestedKey) =>
            match recItems nestedKey with
            | .error msg => .error msg
            | .ok items =>
              if arrayType == .nested then .ok (.addChild ⟨nk, [], none, items⟩)
              else .ok (.addChildren items)
        else if propInfo.type_.isEnum then
          match v with
          | .vEnum _ val => .ok (.addChild ⟨nk, [], some (pyStr val), []⟩)
          | _ => .error "AttributeError: value has no attribute value"
        else if !propInfo.type_.isPrimitiveType then
          (recNested nk).map .addChild
        else if propInfo.type_ == .floatT || propInfo.type_ == .intT then
          .ok (.addChild ⟨nk, [], some (pyStr v), []⟩)
        else if propInfo.type_ == .boolT then
          .ok (.addChild ⟨nk, [], some (pyLower (pyStr v)), []⟩)
        else
          .ok (.addChild ⟨nk, [], some (pyStr v), []⟩)

/-- The registry-injected `_as_xml`.  The `as_string` flag only selects
between the element and its `tostring` serialization and is not
modelled; the result is the element tree.  Calling it on a non-object is
impossible in Python (it is a bound method); the model returns an
error in that case. -/
def asXml (reg : Registry) (fmt : Formatter) :
    PyVal → Option String → Except String XmlElement
  | .vObj m c dict, elementName =>
    let props := Registry.props reg (m ++ "." ++ c)
    assemblePieces (resolveRootTag fmt elementName c)
      (asXmlAttrsPass fmt props dict)
      (dict.attach.map fun kv =>
        match hv : kv.1.2 with
        | .vNone => Except.ok XmlPiece.skip
        | v =>
          let newKey := pyTail kv.1.1
          if startsWithUnderscore newKey || strContains newKey "__" then .ok .skip
          else
            match pyDictGet props newKey with
            | none => .ok .skip
            | some propInfo =>
              asXmlEntryCore fmt propInfo newKey v
                (fun nk =>
                  match hv3 : v with
                  | .vObj vm vc vd => asXml reg fmt (.vObj vm vc vd) (some nk)
                  | _ => .error "AttributeError: value has no as_xml attribute")
                (fun nk =>
                  match hv2 : v with
                  | .vList xs =>
                    xs.attach.mapM (fun j =>
                      if !propInfo.type_.isPrimitiveType then
                        match hj : j.1 with
                        | .vObj jm jc jd => asXml reg fmt (.vObj jm jc jd) (some nk)
                        | _ => .error "AttributeError: item has no as_xml attribute"
                      else .ok (renderArrayItem propInfo nk j.1))
                  | .vSet xs =>
                    xs.attach.mapM (fun j =>
                      if !propInfo.type_.isPrimitiveType then
                        match hj : j.1 with
                        | .vObj jm jc jd => asXml reg fmt (.vObj jm jc jd) (some nk)
                        | _ => .error "AttributeError: item has no as_xml attribute"
                      else .ok (renderArrayItem propInfo nk j.1))
                  | _ => .error "TypeError: value is not iterable"))
  | _, _ => .error "AttributeError: value has no as_xml attribute"
  termination_by v _ => sizeOf v
  decreasing_by
    · simp_wf
      obtain ⟨⟨k0, v0⟩, hm⟩ := kv
      have hkv := List.sizeOf_lt_of_mem hm
      simp only [Prod.mk.sizeOf_spec] at hkv
      dsimp only at hv
      subst hv
      subst hv3
      simp only [PyVal.vObj.sizeOf_spec] at hkv
      omega
    · simp_wf
      obtain ⟨⟨k0, v0⟩, hm⟩ := kv
      have hkv := List.sizeOf_lt_of_mem hm
      simp only [Prod.mk.sizeOf_spec] at hkv
      dsimp only at hv
      subst hv
      subst hv2
      have hjm := List.sizeOf_lt_of_mem j.2
      rw [hj] at hjm
      simp only [PyVal.vObj.sizeOf_spec] at hjm
      simp only [PyVal.vList.sizeOf_spec] at hkv
      omega
    · simp_wf
      obtain ⟨⟨k0, v0⟩, hm⟩ := kv
      have hkv := List.sizeOf_lt_of_mem hm
      simp only [Prod.mk.sizeOf_spec] at hkv
      dsimp only at hv
      subst hv
      subst hv2
      have hjm := List.sizeOf_lt_of_mem j.2
      rw [hj] at hjm
      simp only [PyVal.vObj.sizeOf_spec] at hjm
      simp only [PyVal.vSet.sizeOf_spec] at hkv
      omega

/-- An environment resolving a class name to its legacy
configuration (`self.get_property_key_mappings()` and friends are
class methods of the object being encoded/decoded; witnesses
instantiate this with concrete classes). -/
def LegacyEnv := String → ClassDef

/-- The attribute pass of the legacy `as_xml` (no `None` skip; the
key-mapping lookup uses the mapping's *keys*). -/
def legacyAttrsPass (fmt : Formatter) (cfg : ClassDef)
    (dict : List (String × PyVal)) : List (String × String) :=
  dict.foldl
    (fun acc kv =>
      let newKey := pyTail kv.1
      if startsWithUnderscore newKey || strContains newKey "__" then acc
      else if cfg.propsAsAttributes.contains newKey then
        let nk :=
          if pyDictHas cfg.keyMappings newKey then
            (pyDictGet cfg.keyMappings newKey).getD newKey
          else newKey
        pyDictSet acc (fmt.encode nk) (pyStr kv.2)
      else acc) []

/-- The list/set branch of the legacy `as_xml`: resolve
`(array_type, nested_key)` from `get_array_property_configuration()` or
default to `(FLAT, new_key)` (with `new_key` *before* formatter
encoding), then `item_key = new_key` (the *encoded* wire name) for
`NESTED` and `item_key = nested_key` for `FLAT`. -/
def legacyArrayPiece (fmt : Formatter) (cfg : ClassDef) (nk : String)
    (recItems : String → Except String (List XmlElement)) :
    Except String XmlPiece :=
  let arrayCfg :=
    match pyDictGet cfg.arrayConfig nk with
    | some acfg => (acfg.1, acfg.2.1)
    | none => (XmlArraySerializationType.flat, nk)
  let encKey := fmt.encode nk
  let itemKey := if arrayCfg.1 == .nested then encKey else arrayCfg.2
  match recItems itemKey with
  | .error msg => .error msg
  | .ok items =>
    if arrayCfg.1 == .nested then .ok (.addChild ⟨encKey, [], none, items⟩)
    else .ok (.addChildren items)

/-- The element-pass dispatch of the legacy `as_xml` for one
non-attribute property: key mapping (looked up by *key*), sentinel `.`,
data class mapping (`as_xml` on the value, else `serialize`, else
silently nothing), list/set (array config by the mapped key, default
`(FLAT, new_key)` with `new_key` *before* formatter encoding; in the
`NESTED` case the item tag is the encoded wire name, not the configured
child tag), enum (`str(v.value)`), else `str(v)` — no lowercasing of
booleans on this path. -/
def legacyEntryCore (fmt : Formatter) (cfg : ClassDef)
    (newKey : String) (v : PyVal)
    (recNested : String → Except String XmlElement)
    (recItems : String → Except String (List XmlElement)) :
    Except String XmlPiece :=
  let mapped := pyDictHas cfg.keyMappings newKey
  let nk :=
    if mapped then (pyDictGet cfg.keyMappings newKey).getD newKey
    else newKey
  if mapped && nk == "." then .ok (.setText (pyStr v))
  else if pyDictHas cfg.dataClassMappings nk then
    match pyDictGet cfg.dataClassMappings nk with
    | none => .ok .skip
    | some klass =>
      let nk := fmt.encode nk
      if klass.hasAsXml then (recNested nk).map .addChild
      else
        match klass.isClass, klass.serializeF with
        | true, some ser => .ok (.addChild ⟨nk, [], some (ser v), []⟩)
        | _, _ => .ok .skip
  else
    match v with
    | .vList _ => legacyArrayPiece fmt cfg nk recItems
    | .vSet _ => legacyArrayPiece fmt cfg nk recItems
    | .vEnum _ val => .ok (.addChild ⟨fmt.encode nk, [], some (pyStr val), []⟩)
    | _ => .ok (.addChild ⟨fmt.encode nk, [], some (pyStr v), []⟩)

/-- The legacy `XmlSerializableObject.as_xml`. -/
def legacyAsXml (env : LegacyEnv) (fmt : Formatter) :
    PyVal → Option String → Except String XmlElement
  | .vObj _ c dict, elementName =>
    let cfg := env c
    assemblePieces (resolveRootTag fmt elementName c)
      (legacyAttrsPass fmt cfg dict)
      (dict.attach.map fun kv =>
        match hv : kv.1.2 with
        | .vNone => Except.ok XmlPiece.skip
        | v =>
          let newKey := pyTail kv.1.1
          if startsWithUnderscore newKey || strContains newKey "__" then .ok .skip
          else if cfg.propsAsAttributes.contains newKey then .ok .skip
          else
            legacyEntryCore fmt cfg newKey v
              (fun nk =>
                match hv3 : v with
                | .vObj vm vc vd => legacyAsXml env fmt (.vObj vm vc vd) (some nk)
                | _ => .error "AttributeError: value has no as_xml attribute")
              (fun itemKey =>
                match hv2 : v with
                | .vList xs =>
                  xs.attach.mapM (fun j =>
                    match hj : j.1 with
                    | .vObj jm jc jd =>
                      if (env jc).hasAsXml then
                        legacyAsXml env fmt (.vObj jm jc jd) none
                      else .ok ⟨itemKey, [], some (pyStr (.vObj jm jc jd)), []⟩
                    | jv => .ok ⟨itemKey, [], some (pyStr jv), []⟩)
                | .vSet xs =>
                  xs.attach.mapM (fun j =>
                    match hj : j.1 with
                    | .vObj jm jc jd =>
                      if (env jc).hasAsXml then
                        legacyAsXml env fmt (.vObj jm jc jd) none
                      else .ok ⟨itemKey, [], some (pyStr (.vObj jm jc jd)), []⟩
                    | jv => .ok ⟨itemKey, [], some (pyStr jv), []⟩)
                | _ => .error "TypeError: value is not iterable"))
  | _, _ => .error "AttributeError: value has no as_xml attribute"
  termination_by v _ => sizeOf v
  decreasing_by
    · simp_wf
      obtain ⟨⟨k0, v0⟩, hm⟩ := kv
      have hkv := List.sizeOf_lt_of_mem hm
      simp only [Prod.mk.sizeOf_spec] at hkv
      dsimp only at hv
      subst hv
      subst hv3
      simp only [PyVal.vObj.sizeOf_spec] at hkv
      omega
    · simp_wf
      obtain ⟨⟨k0, v0⟩, hm⟩ := kv
      have hkv := List.sizeOf_lt_of_mem hm
      simp only [Prod.mk.sizeOf_spec] at hkv
      dsimp only at hv
      subst hv
      subst hv2
      have hjm := List.sizeOf_lt_of_mem j.2
      rw [hj] at hjm
      simp only [PyVal.vObj.sizeOf_spec] at hjm
      simp only [PyVal.vList.sizeOf_spec] at hkv
      omega
    · simp_wf
      obtain ⟨⟨k0, v0⟩, hm⟩ := kv
      have hkv := List.sizeOf_lt_of_mem hm
      simp only [Prod.mk.sizeOf_spec] at hkv
      dsimp only at hv
      subst hv
      subst hv2
      have hjm := List.sizeOf_lt_of_mem j.2
      rw [hj] at hjm
      simp only [PyVal.vObj.sizeOf_spec] at hjm
      simp only [PyVal.vSet.sizeOf_spec] at hkv
      omega

/-! ## XML decoding: `XmlSerializableObject.from_xml`

`from_xml(cls, data, default_namespace=None)` infers the default
namespace when none is given, collects attributes, the element text
(for a `.`-mapped property) and the child elements into a kwargs dict,
and ends with `cls(**_data)`.  Every child tag is compared only after
`str(tag).replace('\x7b' + default_namespace + '\x7d', '')`. -/

/-- The `\x7buri\x7d` prefix of a qualified tag, if any. -/
def tagNamespace (t : String) : Option String :=
  match t.data with
  | '{' :: rest => some (String.mk (rest.takeWhile (· != '}')))
  | _ => none

mutual

/-- All tags of an element tree in document (pre-)order. -/
def collectTags : XmlElement → List String
  | ⟨tag, _, _, children⟩ => tag :: collectTagsList children

/-- All tags of a forest in document order. -/
def collectTagsList : List XmlElement → List String
  | [] => []
  | e :: rest => collectTags e ++ collectTagsList rest

end

/-- First occurrences, in order. -/
def dedupFirst (l : List String) : List String :=
  l.foldl (fun acc x => if acc.contains x then acc else acc ++ [x]) []

/-- The namespace URIs of the document in order of first use. -/
def declaredNamespaces (e : XmlElement) : List String :=
  dedupFirst ((collectTags e).filterMap tagNamespace)

/-- Models the library contract of
`ElementTree.iterparse(StringIO(ElementTree.tostring(data)), events=['start-ns'])`
(XML parsing/serialization primitives are external collaborators,
spec §1/§6): re-serializing assigns the generated prefixes
`ns0`, `ns1`, … to the document's namespaces in order of first use, and
the `start-ns` events list those `(prefix, uri)` pairs. -/
def nsEvents (e : XmlElement) : List (String × String) :=
  (declaredNamespaces e).enum.map fun p => ("ns" ++ toString p.1, p.2)

/-- `default_namespace` inference: build the prefix dict from the
`start-ns` events and take the entry for `'ns0'`, else `''`. -/
def inferredNamespace (e : XmlElement) : String :=
  match pyDictGet (nsEvents e) "ns0" with
  | some uri => uri
  | none => ""

/-- `str(tag).replace('\x7b' + default_namespace + '\x7d', '')`. -/
def stripNs (ns tag : String) : String :=
  pyReplace tag ("\x7b" ++ ns ++ "\x7d")

/-- The error raised for an unmapped child element:
`Element "<tag>" does not map to a Property of Class <name>`. -/
def unmappedElementMsg (tagName clsName : String) : String :=
  "ValueError: Element \"" ++ tagName ++ "\" does not map to a Property of Class " ++ clsName

/-- The attribute pass of `from_xml` (attribute names are *not*
namespace-stripped in the source). -/
def fromXmlAttrs (fmt : Formatter) (cls : ClassDef)
    (attribs : List (String × String)) (d0 : List (String × PyVal)) :
    List (String × PyVal) :=
  attribs.foldl
    (fun d av =>
      let dn := fmt.decode av.1
      let dn :=
        if pyValuesContain cls.keyMappings dn then
          (pyReverseLookup cls.keyMappings dn).getD dn
        else dn
      if cls.propsAsAttributes.contains dn then
        match pyDictGet cls.dataClassMappings dn with
        | some klass =>
          match klass.isClass, klass.deserializeF with
          | true, some g => pyDictSet d dn (g (.vStr av.2))
          | _, _ => pyDictSet d dn (klass.callF (.vStr av.2))
        | none =>
          pyDictSet d dn
            (if pyIsDigit av.2 then .vInt (pyToInt av.2) else .vStr av.2)
      else d) d0

/-- The text pass of `from_xml`: nonempty text plus a `.`-mapped
property assigns the stripped text. -/
def fromXmlText (cls : ClassDef) (text : Option String)
    (d : List (String × PyVal)) : List (String × PyVal) :=
  if textTruthy text && pyValuesContain cls.keyMappings "." then
    match pyReverseLookup cls.keyMappings "." with
    | some dn => pyDictSet d dn (.vStr (pyStrip (pyStrOfText text)))
    | none => d
  else d

/-- The dispatch of `from_xml` on one child element's (stripped) tag:
the `NESTED`-expecting branch, the `FLAT` accumulating branch, the data
class mapping branch, the `cls.__dict__` fallback, or the unmapped
error.  (`array_config` filters by `str(child_e_tag_name) in v`, i.e.
tuple membership, which only the configured child tag can match.) -/
inductive ChildBranch where
  | nestedArray (propName : String)
      (cfg : XmlArraySerializationType × String × MappedKlass)
  | flatArray (propName : String)
      (cfg : XmlArraySerializationType × String × MappedKlass)
  | dataClass (propName : String) (klass : MappedKlass)
  | classAttr (propName : String)
  | unmapped (tagName : String)

/-- Resolve one child tag to its decode branch. -/
def childBranch (fmt : Formatter) (cls : ClassDef) (ns : String)
    (childTag : String) : ChildBranch :=
  let tagName := stripNs ns childTag
  let decoded := fmt.decode tagName
  let arrayMatches := cls.arrayConfig.filter fun p => p.2.2.1 == tagName
  let decoded :=
    if pyValuesContain cls.keyMappings decoded then
      (pyReverseLookup cls.keyMappings decoded).getD decoded
    else decoded
  match pyDictGet cls.arrayConfig decoded with
  | some cfg => .nestedArray decoded cfg
  | none =>
    match arrayMatches with
    | m :: _ => .flatArray m.1 m.2
    | [] =>
      match pyDictGet cls.dataClassMappings decoded with
      | some klass => .dataClass decoded klass
      | none =>
        if cls.classDict.contains decoded then .classAttr decoded
        else .unmapped tagName

/-- Process one child element of `from_xml` against the kwargs dict. -/
def processChild (fmt : Formatter) (cls : ClassDef) (ns : String)
    (c : XmlElement) (d : List (String × PyVal)) :
    Except String (List (String × PyVal)) :=
  match childBranch fmt cls ns c.tag with
  | .nestedArray dn cfg =>
    if cfg.1 != .nested then .error "ValueError: Only NESTED expected here!"
    else
      match c.children.mapM (fun sub =>
        let subTag := stripNs ns sub.tag
        if subTag != cfg.2.1 then
          .error ("ValueError: Only " ++ cfg.2.1 ++ " elements expected under "
            ++ stripNs ns c.tag)
        else
          match cfg.2.2.fromXmlF with
          | some f => f sub (some ns)
          | none => .error "AttributeError: type has no from_xml attribute") with
      | .error msg => .error msg
      | .ok items => .ok (pyDictSet d dn (.vList items))
  | .flatArray pn cfg =>
    if cfg.1 != .flat then .error "ValueError: Only FLAT expected here!"
    else
      let itemE : Except String PyVal :=
        match cfg.2.2.fromXmlF with
        | some f => f c none
        | none => .ok (cfg.2.2.callF (textToPy c.text))
      match itemE with
      | .error msg => .error msg
      | .ok item =>
        match pyDictGet d pn with
        | none => .ok (pyDictSet d pn (.vList [item]))
        | some (.vList xs) => .ok (pyDictSet d pn (.vList (xs ++ [item])))
        | some _ => .error "AttributeError: value has no append attribute"
  | .dataClass dn klass =>
    if klass.isClass then
      match klass.fromXmlF with
      | some f => (f c none).map fun w => pyDictSet d dn w
      | none =>
        match klass.deserializeF with
        | some g => .ok (pyDictSet d dn (g (.vStr (pyStrOfText c.text))))
        | none => .ok (pyDictSet d dn (klass.callF (.vStr (pyStrOfText c.text))))
    else .ok (pyDictSet d dn (klass.callF (.vStr (pyStrOfText c.text))))
  | .classAttr dn =>
    .ok (pyDictSet d dn
      (if pyIsDigit (pyStrOfText c.text) then .vInt (pyToInt (pyStrOfText c.text))
       else textToPy c.text))
  | .unmapped tagName => .error (unmappedElementMsg tagName cls.name)

/-- The child loop of `from_xml`: abort at the first failing child. -/
def childrenPhase (fmt : Formatter) (cls : ClassDef) (ns : String) :
    List XmlElement → List (String × PyVal) → Except String (List (String × PyVal))
  | [], d => .ok d
  | c :: rest, d =>
    match processChild fmt cls ns c d with
    | .error msg => .error msg
    | .ok d' => childrenPhase fmt cls ns rest d'

/-- `if default_namespace is None: <infer> else: <use the given one>`. -/
def resolveNs (e : XmlElement) : Option String → String
  | some s => s
  | none => inferredNamespace e

/-- `XmlSerializableObject.from_xml(cls, data, default_namespace)`. -/
def fromXml (fmt : Formatter) (cls : ClassDef) (e : XmlElement)
    (defaultNamespace : Option String) : Except String PyVal :=
  let ns := resolveNs e defaultNamespace
  let d := fromXmlText cls e.text (fromXmlAttrs fmt cls e.attrib [])
  (childrenPhase fmt cls ns e.children d).bind (pyCtor cls)

/-! ## Registration: `ObjectMetadataLibrary`

`register_klass` guards on `is_klass_serializable(klass)`, stores a
fresh `SerializableClass` under the fully-qualified name, rebuilds the
property mapping for the class from the pre-recorded per-property
overrides, and `setattr`s the requested codec entry points onto the
class.  Python object identity matters for the *idempotence* claim (a
second registration builds *new* metadata objects), so the model
threads a counter and stamps each created `SerializableClass` with a
fresh identity. -/

/-- A key of the `klass_mappings` dict together with the kind of value
used to query it: `register_klass` stores `str` keys
(`f'\x7bklass.__module__\x7d.\x7bklass.__qualname__\x7d'`) while
`is_klass_serializable` queries `klass in cls.klass_mappings` with the
class object itself.  Python `==` between a class object and a `str` is
`False`, which the `DecidableEq` on this type mirrors by constructor
disjointness. -/
inductive PyKey where
  | str (s : String)
  | cls (objId : Nat)
deriving DecidableEq, Repr

/-- A class object being registered: identity, names and the
`@property` members found by `inspect.getmembers(klass, is_property)`
(with their return annotations), in the alphabetical order `getmembers`
produces. -/
structure KlassDesc where
  objId : Nat
  module : String
  qualname : String
  name : String
  props : List (String × PyType)

/-- `ObjectMetadataLibrary.SerializableClass` (the stored class
metadata).  `createdId` models the Python object's identity: each
construction yields a distinct object. -/
structure SerializableClassMeta where
  name : String
  customName : Option String
  serializationTypes : List SerializationType
  createdId : Nat
deriving DecidableEq, Repr

/-- The mutable state of `ObjectMetadataLibrary` (the class-level
dicts), plus the per-class-object injected attribute names
(`setattr(klass, ...)`) and the freshness counter. -/
structure RegState where
  klassMappings : List (PyKey × SerializableClassMeta)
  klassPropertyMappings : List (String × List (String × SerializableProperty))
  propNames : List (String × List (SerializationType × String))
  propTypes : List (String × CustomType)
  propAttributes : List String
  propArrayConfig : List (String × (XmlArraySerializationType × String))
  injected : List (Nat × List String)
  nextId : Nat

/-- The empty `ObjectMetadataLibrary` state. -/
def RegState.initial : RegState :=
  ⟨[], [], [], [], [], [], [], 0⟩

/-- `type(klass) is Type`: for any class object, `type(klass)` is its
metaclass (`type`), never the `typing.Type` special form, so this test
is `False`. -/
def typeIsTypingType (_k : KlassDesc) : Bool := false

/-- `ObjectMetadataLibrary.is_klass_serializable(klass)`: on the branch
actually taken (`typeIsTypingType` is `False`) it evaluates
`klass in cls.klass_mappings` — the class *object* queried against the
dict's `str` keys. -/
def isKlassSerializable (k : KlassDesc) (st : RegState) : Bool :=
  if typeIsTypingType k then
    st.klassMappings.any fun p => p.1 == .str (k.module ++ "." ++ k.name)
  else
    st.klassMappings.any fun p => p.1 == .cls k.objId

/-- `pyDictSet` for `PyKey`-keyed dicts. -/
def pyDictSetK (d : List (PyKey × α)) (k : PyKey) (v : α) : List (PyKey × α) :=
  if d.any (fun p => p.1 == k) then
    d.map (fun p => if p.1 == k then (k, v) else p)
  else
    d ++ [(k, v)]

/-- `setattr(klass, attrName, fn)`: record the attribute name on the
class object. -/
def setAttr (injected : List (Nat × List String)) (objId : Nat)
    (attrName : String) : List (Nat × List String) :=
  match injected.find? (fun p => p.1 == objId) with
  | some p =>
    injected.map fun q =>
      if q.1 == objId then (objId, if p.2.contains attrName then p.2 else p.2 ++ [attrName])
      else q
  | none => injected ++ [(objId, [attrName])]

/-- The attributes currently set on a class object. -/
def attrsOf (injected : List (Nat × List String)) (objId : Nat) : List String :=
  ((injected.find? (fun p => p.1 == objId)).map (·.2)).getD []

/-- Build the `SerializableProperty` for one discovered `@property`
member from the pre-recorded overrides. -/
def buildProperty (st : RegState) (qualifiedClassName : String)
    (p : String × PyType) : String × SerializableProperty :=
  let qualifiedPropertyName := qualifiedClassName ++ "." ++ p.1
  (p.1,
    { name := p.1
      customNames := (pyDictGet st.propNames qualifiedPropertyName).getD []
      type_ := p.2
      customType := pyDictGet st.propTypes qualifiedPropertyName
      isXmlAttribute := st.propAttributes.contains qualifiedPropertyName
      xmlArrayConfig := pyDictGet st.propArrayConfig qualifiedPropertyName })

/-- `ObjectMetadataLibrary.register_klass(klass, a, serialization_types)`.
(The `a` parameter is only printed by the source and does not reach the
stored metadata.) -/
def registerKlass (k : KlassDesc) (serializationTypes : List SerializationType)
    (st : RegState) : RegState :=
  if isKlassSerializable k st then st
  else
    let qualifiedClassName := k.module ++ "." ++ k.qualname
    let meta : SerializableClassMeta :=
      { name := k.name
        customName := none
        serializationTypes := serializationTypes
        createdId := st.nextId }
    let st :=
      { st with
          klassMappings := pyDictSetK st.klassMappings (.str qualifiedClassName) meta
          nextId := st.nextId + 1 }
    let st :=
      { st with
          klassPropertyMappings :=
            pyDictSet st.klassPropertyMappings qualifiedClassName
              (k.props.map (buildProperty st qualifiedClassName)) }
    let st :=
      if serializationTypes.contains .json then
        { st with injected := setAttr (setAttr st.injected k.objId "as_json") k.objId "from_json" }
      else st
    if serializationTypes.contains .xml then
      { st with injected := setAttr st.injected k.objId "as_xml" }
    else st

/-! ## Concrete instances used by counterexamples and witnesses -/

/-- A registered `Book` type with a single enum-typed property `kind`. -/
def enumBookReg : Registry :=
  [("m.Book", [("kind", ⟨"kind", [], .enumT "Genre", none, false, none⟩)])]

/-- The `Book` target class: one constructor parameter `kind`, empty
legacy configuration. -/
def enumBookCls : ClassDef := ClassDef.simple "m" "Book" ["kind"]

/-- A `Book` whose `kind` is the `Genre` enum member with value `"fiction"`. -/
def enumBook : PyVal := .vObj "m" "Book" [("_kind", .vEnum "Genre" (.vStr "fiction"))]

/-- A registered `Book` with an `int` `id` and a `str` `title`. -/
def primBookReg : Registry :=
  [("m.Book", [("id", ⟨"id", [], .intT, none, false, none⟩),
               ("title", ⟨"title", [], .strT, none, false, none⟩)])]

/-- The primitive `Book` target class. -/
def primBookCls : ClassDef := ClassDef.simple "m" "Book" ["id", "title"]

/-- A legacy `Box` class whose `things` property is configured
`NESTED` with child tag `item`. -/
def nestedBoxCls : ClassDef :=
  { ClassDef.simple "m" "Box" ["things"] with
      arrayConfig := [("things", (.nested, "item", MappedKlass.plain id))] }

/-- A legacy environment resolving every class to `nestedBoxCls`. -/
def nestedBoxEnv : LegacyEnv := fun _ => nestedBoxCls

/-- A registry for `Box` whose `things : List[str]` property carries the
given placement with child tag `item`. -/
def boxReg (placement : XmlArraySerializationType) : Registry :=
  [("m.Box", [("things", ⟨"things", [], .listT .strT, none, false,
      some (placement, "item")⟩)])]

/-- A registry for `Box` whose `things : List[str]` property has *no*
XML array configuration. -/
def boxRegNoCfg : Registry :=
  [("m.Box", [("things", ⟨"things", [], .listT .strT, none, false, none⟩)])]

/-- A legacy `Box` class with no array configuration at all. -/
def plainBoxEnv : LegacyEnv := fun _ => ClassDef.simple "m" "Box" ["things"]

/-- A registered `Flag` class with one `bool` property `on`. -/
def flagReg : Registry :=
  [("m.Flag", [("on", ⟨"on", [], .boolT, none, false, none⟩)])]

/-- A legacy environment for `Flag` (empty configuration). -/
def flagEnv : LegacyEnv := fun _ => ClassDef.simple "m" "Flag" ["on"]

/-- A class object being registered, for the registration claims. -/
def bookKlass : KlassDesc := ⟨7, "m", "Book", "Book", [("title", .strT)]⟩

/-- The `Book` target class with `title` present in `cls.__dict__`
(the decode fallback branch). -/
def dictBookCls : ClassDef :=
  { ClassDef.simple "m" "Book" ["title"] with classDict := ["title"] }

/-- A registered `Num` class with one `int` property `n`. -/
def numReg : Registry :=
  [("m.Num", [("n", ⟨"n", [], .intT, none, false, none⟩)])]

/-- A registered `Name` class with one `str` property `s`. -/
def nameReg : Registry :=
  [("m.Name", [("s", ⟨"s", [], .strT, none, false, none⟩)])]

/-- The primitive JSON fragment: `bool`/`int`/`str` values and lists of
such values.  (`None` is excluded — the encoder drops it; floats are
not modelled; sets, enums, dicts and objects are outside the
fragment.) -/
def jsonPrimVal : PyVal → Bool
  | .vBool _ => true
  | .vInt _ => true
  | .vStr _ => true
  | .vList xs =>
    xs.all fun x =>
      match x with
      | .vBool _ => true
      | .vInt _ => true
      | .vStr _ => true
      | _ => false
  | _ => false

/-- A registered `A` class whose `ref` property is an XML attribute. -/
def attrReg : Registry :=
  [("m.A", [("ref", ⟨"ref", [], .strT, none, true, none⟩)])]

/-- The legacy configuration of `A`: `ref` in `properties_as_attributes`. -/
def attrCfg : ClassDef :=
  { ClassDef.simple "m" "A" ["ref"] with propsAsAttributes := ["ref"] }

/-- A legacy environment resolving every class to `attrCfg`. -/
def attrEnv : LegacyEnv := fun _ => attrCfg

/-! ## Theorems -/

/-- C3: `is_klass_serializable` checks `klass in cls.klass_mappings`,
comparing the class object against the dict's `str` keys, so it answers
`false` even for a registered class; a second `register_klass` call for
the same class therefore does not take the early-return path: it keeps a
single entry under the fully-qualified name but *replaces* the stored
`SerializableClass` (the entry after the second call is the object
created by the second call, `createdId = 1`, not the first call's
`createdId = 0`) and re-runs the `setattr` injections — the
registration is not idempotent, contradicting the claim and the
source's own early-return guard, whose evident purpose is idempotence. -/
theorem c3_reregistration_not_noop :
    isKlassSerializable bookKlass (registerKlass bookKlass [.json, .xml] RegState.initial) = false
    ∧ (registerKlass bookKlass [.json, .xml] RegState.initial).klassMappings
      = [(PyKey.str "m.Book",
          { name := "Book", customName := none,
            serializationTypes := [.json, .xml], createdId := 0 })]
    ∧ (registerKlass bookKlass [.json, .xml]
        (registerKlass bookKlass [.json, .xml] RegState.initial)).klassMappings
      = [(PyKey.str "m.Book",
          { name := "Book", customName := none,
            serializationTypes := [.json, .xml], createdId := 1 })] :=
  ⟨rfl, rfl, rfl⟩

/-- C1 counterexample: for the registered `Book` with an enum-typed
property (a property kind the claim includes), decoding the encoded
document does not reproduce the object: the JSON encoder flattens the
enum member to its underlying value `"fiction"`, and `_from_json`
passes that raw value straight to the constructor, so the reconstructed
field holds the string, not the enum member. -/
theorem c1_json_roundtrip_enum_counterexample :
    jsonRoundTrip enumBookReg idFormatter enumBookCls enumBook
      = .ok (.vObj "m" "Book" [("_kind", .vStr "fiction")])
    ∧ jsonRoundTrip enumBookReg idFormatter enumBookCls enumBook ≠ .ok enumBook := by
  have heval : jsonRoundTrip enumBookReg idFormatter enumBookCls enumBook
      = .ok (.vObj "m" "Book" [("_kind", .vStr "fiction")]) := by
    simp [jsonRoundTrip, encodeJson, jvalToPy, enumBookReg, enumBookCls, enumBook,
      Registry.props, idFormatter, pyDictHas, pyDictGet, jsonDefaultEntry,
      jsonAssembleDict, pyDictSet, SerializableProperty.customName,
      fromJson, fromJsonStep1, fromJsonStep2, pyCtor, ClassDef.simple,
      pyValuesContain, pyDictDel, strContains, listContainsAux,
      pyTail, startsWithUnderscore]
    try rfl
  refine ⟨heval, ?_⟩
  intro h
  rw [heval] at h
  simp [enumBook] at h

/-- C4 counterexample: the legacy `XmlSerializableObject.as_xml`, on a
3-item collection configured `NESTED` with child tag `item`, produces
the wrapper but tags every item element with the property's wire name
`things` — no child is tagged `item`. -/
theorem c4_legacy_nested_item_tag_counterexample :
    legacyAsXml nestedBoxEnv idFormatter
      (.vObj "m" "Box" [("_things", .vList [.vStr "a", .vStr "b", .vStr "c"])]) none
      = .ok ⟨"Box", [], none,
          [⟨"things", [], none,
            [⟨"things", [], some "a", []⟩,
             ⟨"things", [], some "b", []⟩,
             ⟨"things", [], some "c", []⟩]⟩]⟩
    ∧ ("things" : String) ≠ "item" := by
  refine ⟨?_, by decide⟩
  rw [legacyAsXml.eq_def]
  rfl

/-- C5 counterexample: the registry-injected `_as_xml` does not default
the array configuration: on a collection-valued property with no
registered `xmlArrayConfig` it fails (`_array_type, nested_key =
prop_info.xml_array_config` unpacks `None`) instead of succeeding with
`FLAT`. -/
theorem c5_asxml_missing_array_config_error :
    asXml boxRegNoCfg idFormatter
      (.vObj "m" "Box" [("_things", .vList [.vStr "a"])]) none
      = .error "TypeError: cannot unpack non-iterable NoneType object" := by
  rw [asXml.eq_def]
  rfl

/-- C6 counterexample: the legacy `XmlSerializableObject.as_xml`
renders a `bool`-valued property through plain `str(v)`, producing the
text `True` — not the lowercase `true` the claim requires of every XML
encode. -/
theorem c6_legacy_bool_uppercase_counterexample :
    legacyAsXml flagEnv idFormatter (.vObj "m" "Flag" [("_on", .vBool true)]) none
      = .ok ⟨"Flag", [], none, [⟨"on", [], some "True", []⟩]⟩
    ∧ (some "True" : Option String) ≠ some "true" := by
  refine ⟨?_, by decide⟩
  rw [legacyAsXml.eq_def]
  rfl

/-- C8: a JSON input key whose formatter-decoded form matches no key
removal, no custom key mapping, no data class mapping and no array
configuration of the target type is not rejected by `_from_json`: the
decoded key and its value are placed in the kwargs dict handed to the
constructor, and when the decoded key names no constructor parameter
the resulting failure is exactly the constructor's own
unexpected-argument error. -/
theorem c8_unknown_json_key_passthrough (fmt : Formatter) (cls : ClassDef)
    (k : String) (v : PyVal)
    (hrem : cls.jsonKeyRemovals.contains k = false)
    (hmap : pyValuesContain cls.keyMappings (fmt.decode k) = false)
    (hdcm : pyDictGet cls.dataClassMappings (fmt.decode k) = none)
    (hacf : pyDictGet cls.arrayConfig (fmt.decode k) = none)
    (hfld : cls.fields.contains (fmt.decode k) = false) :
    fromJsonStep2 cls (fromJsonStep1 fmt cls [(k, v)]) = .ok [(fmt.decode k, v)]
    ∧ fromJson fmt cls [(k, v)]
      = .error ("TypeError: __init__() got an unexpected keyword argument " ++ fmt.decode k) := by
  have hrem' : ¬ k ∈ cls.jsonKeyRemovals := by simpa using hrem
  have h1 : fromJsonStep1 fmt cls [(k, v)] = [(fmt.decode k, v)] := by
    unfold fromJsonStep1 fromJsonStep1Entry
    simp [hrem', hmap, pyDictDel, pyDictSet, pyDictHas]
  have h2 : fromJsonStep2 cls [(fmt.decode k, v)] = .ok [(fmt.decode k, v)] := by
    have hval : fromJsonValue cls (fmt.decode k) v = .ok v := by
      unfold fromJsonValue
      rw [hdcm, hacf]
    unfold fromJsonStep2
    rw [hval]
    rfl
  refine ⟨h1 ▸ h2, ?_⟩
  have hfld' : ¬ fmt.decode k ∈ cls.fields := by simpa using hfld
  unfold fromJson
  rw [h1, h2]
  unfold pyCtor
  simp [hfld', Except.bind]

/-- Witness for C8: the unknown key `publisher` of a `Book` input is
decoded, kept in the kwargs, and only the constructor rejects it. -/
theorem c8_unknown_json_key_passthrough_witness :
    fromJsonStep2 primBookCls
        (fromJsonStep1 idFormatter primBookCls [("publisher", .vStr "X")])
      = .ok [("publisher", .vStr "X")]
    ∧ fromJson idFormatter primBookCls [("publisher", .vStr "X")]
      = .error "TypeError: __init__() got an unexpected keyword argument publisher" :=
  c8_unknown_json_key_passthrough idFormatter primBookCls "publisher" (.vStr "X")
    rfl rfl rfl rfl rfl

/-- C4 (amended): the registry-injected `_as_xml` does implement the
claimed shapes.  For a `things : List[str]` property configured
`(NESTED, "item")`, encoding a 3-item collection yields exactly one
wrapper element named by the resolved wire name containing exactly 3
children tagged `item`; configured `(FLAT, "item")` it yields exactly 3
siblings tagged `item` directly under the parent and no wrapper
element. -/
theorem c4_asxml_nested_flat_shape (fmt : Formatter) (a b c : String) :
    asXml (boxReg .nested) fmt
      (.vObj "m" "Box" [("_things", .vList [.vStr a, .vStr b, .vStr c])]) none
      = .ok ⟨fmt.encode "Box", [], none,
          [⟨fmt.encode "things", [], none,
            [⟨"item", [], some a, []⟩,
             ⟨"item", [], some b, []⟩,
             ⟨"item", [], some c, []⟩]⟩]⟩
    ∧ asXml (boxReg .flat) fmt
      (.vObj "m" "Box" [("_things", .vList [.vStr a, .vStr b, .vStr c])]) none
      = .ok ⟨fmt.encode "Box", [], none,
          [⟨"item", [], some a, []⟩,
           ⟨"item", [], some b, []⟩,
           ⟨"item", [], some c, []⟩]⟩ := by
  constructor
  · rw [asXml.eq_def]
    rfl
  · rw [asXml.eq_def]
    rfl

/-- C5 (amended): the legacy `XmlSerializableObject.as_xml` does
default a collection property with no array configuration to `FLAT`
placement — but the item tag is the property's name *before* formatter
encoding (`things`, even though the root tag is the formatter-encoded
class name), and the encode succeeds. -/
theorem c5_legacy_flat_default (fmt : Formatter) (a b : String) :
    legacyAsXml plainBoxEnv fmt
      (.vObj "m" "Box" [("_things", .vList [.vStr a, .vStr b])]) none
      = .ok ⟨fmt.encode "Box", [], none,
          [⟨"things", [], some a, []⟩, ⟨"things", [], some b, []⟩]⟩ := by
  rw [legacyAsXml.eq_def]
  rfl

/-- C6 (amended): the registry-injected `_as_xml` renders a property
declared `bool` as lowercase `true`/`false`, and `int`/`str` primitives
via default string conversion. -/
theorem c6_asxml_bool_lowercase (fmt : Formatter) (n : Int) (s : String) :
    asXml flagReg fmt (.vObj "m" "Flag" [("_on", .vBool true)]) none
      = .ok ⟨fmt.encode "Flag", [], none, [⟨fmt.encode "on", [], some "true", []⟩]⟩
    ∧ asXml flagReg fmt (.vObj "m" "Flag" [("_on", .vBool false)]) none
      = .ok ⟨fmt.encode "Flag", [], none, [⟨fmt.encode "on", [], some "false", []⟩]⟩
    ∧ asXml numReg fmt (.vObj "m" "Num" [("_n", .vInt n)]) none
      = .ok ⟨fmt.encode "Num", [], none, [⟨fmt.encode "n", [], some (toString n), []⟩]⟩
    ∧ asXml nameReg fmt (.vObj "m" "Name" [("_s", .vStr s)]) none
      = .ok ⟨fmt.encode "Name", [], none, [⟨fmt.encode "s", [], some s, []⟩]⟩ := by
  refine ⟨?_, ?_, ?_, ?_⟩ <;> (rw [asXml.eq_def]; rfl)

/-- C9: a property flagged as an XML attribute whose value is `None` is
still emitted by both XML encoders, with the literal string `None` as
its value, and produces no child element: the `None` skip exists only
in the element-pass loop, not in the attribute-pass loop. -/
theorem c9_none_attribute_emitted (reg : Registry) (env : LegacyEnv)
    (fmt : Formatter) (m c k nk : String) (en : Option String)
    (pi : SerializableProperty) (cfg : ClassDef)
    (hk : pyTail k = nk)
    (hshape : (startsWithUnderscore nk || strContains nk "__") = false)
    (hprops : Registry.props reg (m ++ "." ++ c) = [(nk, pi)])
    (hattr : pi.isXmlAttribute = true)
    (hcfg : env c = cfg)
    (hcfga : cfg.propsAsAttributes = [nk])
    (hcfgk : cfg.keyMappings = []) :
    asXml reg fmt (.vObj m c [(k, .vNone)]) en
      = .ok ⟨resolveRootTag fmt en c,
          [(fmt.encode ((pi.customName .xml).getD nk), "None")], none, []⟩
    ∧ legacyAsXml env fmt (.vObj m c [(k, .vNone)]) en
      = .ok ⟨resolveRootTag fmt en c, [(fmt.encode nk, "None")], none, []⟩ := by
  constructor
  · rw [asXml.eq_def]
    simp [hprops, asXmlAttrsPass, hk, hshape, hattr, pyDictGet, pyDictSet,
      pyDictHas, pyStr, assemblePieces, List.attach, List.pmap]
    simpa using hshape
  · rw [legacyAsXml.eq_def]
    simp [hcfg, legacyAttrsPass, hk, hshape, hcfga, hcfgk, pyDictGet, pyDictSet,
      pyDictHas, pyStr, assemblePieces, List.attach, List.pmap]
    simpa using hshape

/-- Witness for C9: the concrete `A` class with attribute `ref = None`. -/
theorem c9_none_attribute_emitted_witness :
    asXml attrReg idFormatter (.vObj "m" "A" [("_ref", .vNone)]) none
      = .ok ⟨"A", [("ref", "None")], none, []⟩
    ∧ legacyAsXml attrEnv idFormatter (.vObj "m" "A" [("_ref", .vNone)]) none
      = .ok ⟨"A", [("ref", "None")], none, []⟩ :=
  c9_none_attribute_emitted attrReg attrEnv idFormatter "m" "A" "_ref" "ref" none
    ⟨"ref", [], .strT, none, true, none⟩ attrCfg rfl rfl rfl rfl rfl rfl rfl

/-- The child loop distributes over list append (an aborted prefix
aborts the whole loop). -/
theorem childrenPhase_append (fmt : Formatter) (cls : ClassDef) (ns : String)
    (xs ys : List XmlElement) (d : List (String × PyVal)) :
    childrenPhase fmt cls ns (xs ++ ys) d
      = match childrenPhase fmt cls ns xs d with
        | .error msg => .error msg
        | .ok d' => childrenPhase fmt cls ns ys d' := by
  induction xs generalizing d with
  | nil => simp [childrenPhase]
  | cons c rest ih =>
    simp only [List.cons_append, childrenPhase]
    cases processChild fmt cls ns c d
    · simp
    · simp [ih]

/-- A child whose tag resolves to the unmapped branch makes
`processChild` raise the unmapped-element error. -/
theorem processChild_unmapped (fmt : Formatter) (cls : ClassDef) (ns : String)
    (c : XmlElement) (d : List (String × PyVal)) (tn : String)
    (hbranch : childBranch fmt cls ns c.tag = .unmapped tn) :
    processChild fmt cls ns c d = .error (unmappedElementMsg tn cls.name) := by
  unfold processChild
  rw [hbranch]

/-- C2: when an XML document's child element has a tag that resolves —
after namespace stripping, formatter decoding and custom key mapping —
to no array configuration, no flat-array child tag, no data class
mapping and no class attribute of the target type (the unmapped
branch), and the preceding children process without error, `from_xml`
raises the error naming the unmapped element tag and the target type
name, and never reaches the constructor (no object is built). -/
theorem c2_unmapped_element_error (fmt : Formatter) (cls : ClassDef)
    (e : XmlElement) (nsOpt : Option String) (pre post : List XmlElement)
    (c : XmlElement) (tn : String) (d : List (String × PyVal))
    (hch : e.children = pre ++ c :: post)
    (hbranch : childBranch fmt cls (resolveNs e nsOpt) c.tag = .unmapped tn)
    (hpre : childrenPhase fmt cls (resolveNs e nsOpt) pre
        (fromXmlText cls e.text (fromXmlAttrs fmt cls e.attrib [])) = .ok d) :
    fromXml fmt cls e nsOpt = .error (unmappedElementMsg tn cls.name) := by
  unfold fromXml
  show (childrenPhase fmt cls (resolveNs e nsOpt) e.children
      (fromXmlText cls e.text (fromXmlAttrs fmt cls e.attrib []))).bind (pyCtor cls)
    = _
  rw [hch, childrenPhase_append, hpre]
  simp only [childrenPhase, processChild_unmapped fmt cls _ c d tn hbranch]
  rfl

/-- Witness for C2: decoding `<book><publisher>X</publisher></book>`
into the `Book` class (whose only property is `title`) fails with the
error naming `publisher` and `Book`. -/
theorem c2_unmapped_element_error_witness :
    fromXml idFormatter (ClassDef.simple "m" "Book" ["title"])
      ⟨"book", [], none, [⟨"publisher", [], some "X", []⟩]⟩ none
      = .error "ValueError: Element \"publisher\" does not map to a Property of Class Book" := by
  have hns : resolveNs ⟨"book", [], none, [⟨"publisher", [], some "X", []⟩]⟩
      (none : Option String) = "" := by
    simp [resolveNs, inferredNamespace, nsEvents, declaredNamespaces,
      collectTags, collectTagsList, dedupFirst, tagNamespace, pyDictGet]
  refine c2_unmapped_element_error idFormatter (ClassDef.simple "m" "Book" ["title"])
    ⟨"book", [], none, [⟨"publisher", [], some "X", []⟩]⟩ none [] []
    ⟨"publisher", [], some "X", []⟩ "publisher" [] rfl ?_ ?_
  · rw [hns]
    simp [childBranch, stripNs, pyReplace, replAux, pyValuesContain,
      pyReverseLookup, pyDictGet, ClassDef.simple, idFormatter]
  · rw [hns]
    rfl

/-- `find?` skips a prefix in which nothing matches. -/
theorem find?_append_of_none {α} (p : α → Bool) (l₁ l₂ : List α)
    (h : l₁.find? p = none) : (l₁ ++ l₂).find? p = l₂.find? p := by
  induction l₁ with
  | nil => simp
  | cons a rest ih =>
    rw [List.find?_cons] at h
    cases hpa : p a with
    | true => simp [hpa] at h
    | false =>
      rw [hpa] at h
      simp only [List.cons_append, List.find?_cons, hpa]
      exact ih h

/-- The `setattr` update map leaves a list untouched when no entry has
the updated key. -/
theorem map_keep_of_find?_none {β} (l : List (Nat × β)) (objId : Nat)
    (x : Nat × β)
    (h : l.find? (fun q => q.1 == objId) = none) :
    l.map (fun q => if q.1 == objId then x else q) = l := by
  induction l with
  | nil => simp
  | cons a rest ih =>
    rw [List.find?_cons] at h
    cases hpa : (a.1 == objId) with
    | true => simp [hpa] at h
    | false =>
      rw [hpa] at h
      simp only [List.map_cons, hpa, Bool.false_eq_true, if_false]
      rw [ih h]

/-- `setattr` on a class object with no record yet appends a fresh
entry. -/
theorem setAttr_fresh (inj : List (Nat × List String)) (objId : Nat) (a : String)
    (h : inj.find? (fun p => p.1 == objId) = none) :
    setAttr inj objId a = inj ++ [(objId, [a])] := by
  unfold setAttr
  rw [h]

/-- `setattr` on a class object whose record is the last entry updates
only that entry. -/
theorem setAttr_snoc (inj : List (Nat × List String)) (objId : Nat)
    (l : List String) (a : String)
    (h : inj.find? (fun p => p.1 == objId) = none) :
    setAttr (inj ++ [(objId, l)]) objId a
      = inj ++ [(objId, if l.contains a then l else l ++ [a])] := by
  unfold setAttr
  rw [find?_append_of_none _ _ _ h]
  simp only [List.find?_cons, beq_self_eq_true, List.find?]
  rw [List.map_append, map_keep_of_find?_none _ _ _ h]
  simp

/-- Reading back the attributes of the last-appended class record. -/
theorem attrsOf_snoc (inj : List (Nat × List String)) (objId : Nat)
    (l : List String)
    (h : inj.find? (fun p => p.1 == objId) = none) :
    attrsOf (inj ++ [(objId, l)]) objId = l := by
  unfold attrsOf
  rw [find?_append_of_none _ _ _ h]
  simp [List.find?]

/-- C10: for a class object with no previously injected codec
attributes, registration with XML among the serialization types injects
`as_xml` but never `from_xml`; only registration with JSON injects both
`as_json` and `from_json`. -/
theorem c10_injection_asymmetry (k : KlassDesc) (ts : List SerializationType)
    (st : RegState)
    (hkeys : ∀ p ∈ st.klassMappings, ∃ s, p.1 = PyKey.str s)
    (hfresh : st.injected.find? (fun p => p.1 == k.objId) = none) :
    "from_xml" ∉ attrsOf (registerKlass k ts st).injected k.objId
    ∧ ("as_xml" ∈ attrsOf (registerKlass k ts st).injected k.objId
        ↔ ts.contains .xml = true)
    ∧ ("as_json" ∈ attrsOf (registerKlass k ts st).injected k.objId
        ↔ ts.contains .json = true)
    ∧ ("from_json" ∈ attrsOf (registerKlass k ts st).injected k.objId
        ↔ ts.contains .json = true) := by
  have hguard : isKlassSerializable k st = false := by
    unfold isKlassSerializable typeIsTypingType
    simp only [Bool.false_eq_true, if_false]
    rw [List.any_eq_false]
    intro p hp
    obtain ⟨s, hs⟩ := hkeys p hp
    simp [hs]
  unfold registerKlass
  rw [hguard]
  by_cases hj : ts.contains SerializationType.json
    <;> by_cases hx : ts.contains SerializationType.xml
    <;> simp only [Bool.false_eq_true, if_false, if_true, hj, hx]
  · rw [setAttr_fresh _ _ _ hfresh, setAttr_snoc _ _ _ _ hfresh,
      setAttr_snoc _ _ _ _ hfresh]
    rw [attrsOf_snoc _ _ _ hfresh]
    simp [hj, hx]
  · rw [setAttr_fresh _ _ _ hfresh, setAttr_snoc _ _ _ _ hfresh]
    rw [attrsOf_snoc _ _ _ hfresh]
    simp [hj, hx]
  · rw [setAttr_fresh _ _ _ hfresh]
    rw [attrsOf_snoc _ _ _ hfresh]
    simp [hj, hx]
  · have : attrsOf st.injected k.objId = [] := by
      unfold attrsOf
      rw [hfresh]
      rfl
    rw [this]
    simp [hj, hx]

/-- Witness for C10: registering `bookKlass` with both formats from the
empty state injects `as_json`, `from_json`, `as_xml` and nothing else. -/
theorem c10_injection_asymmetry_witness :
    "from_xml" ∉ attrsOf (registerKlass bookKlass [.json, .xml] RegState.initial).injected 7
    ∧ ("as_xml" ∈ attrsOf (registerKlass bookKlass [.json, .xml] RegState.initial).injected 7
        ↔ ([SerializationType.json, .xml].contains SerializationType.xml) = true)
    ∧ ("as_json" ∈ attrsOf (registerKlass bookKlass [.json, .xml] RegState.initial).injected 7
        ↔ ([SerializationType.json, .xml].contains SerializationType.json) = true)
    ∧ ("from_json" ∈ attrsOf (registerKlass bookKlass [.json, .xml] RegState.initial).injected 7
        ↔ ([SerializationType.json, .xml].contains SerializationType.json) = true) :=
  c10_injection_asymmetry bookKlass [.json, .xml] RegState.initial
    (by intro p hp; simp [RegState.initial] at hp) rfl

/-- Scanning a list that starts with the pattern removes that
occurrence and continues after it. -/
theorem replAux_cons_prefix (pat t : List Char) (hne : pat ≠ []) :
    replAux pat (pat ++ t) = replAux pat t := by
  cases pat with
  | nil => exact absurd rfl hne
  | cons p ps =>
    rw [List.cons_append, replAux.eq_def]
    have hpre : (p :: ps).isPrefixOf (p :: (ps ++ t)) = true := by
      rw [List.isPrefixOf_iff_prefix]
      exact List.prefix_append (p :: ps) t
    simp only [List.isEmpty_cons, hpre, if_true, if_false, Bool.false_eq_true]
    rw [dif_neg not_false]
    rw [show List.drop (p :: ps).length (p :: (ps ++ t)) = t from List.drop_left (p :: ps) t]

/-- Scanning a list in which the pattern does not occur leaves it
unchanged. -/
theorem replAux_no_occurrence (pat : List Char) (s : List Char)
    (hne : pat ≠ []) (h : listContainsAux pat s = false) :
    replAux pat s = s := by
  induction s with
  | nil => rw [replAux.eq_def]
  | cons c rest ih =>
    rw [listContainsAux] at h
    rcases Bool.or_eq_false_iff.mp h with ⟨h1, h2⟩
    rw [replAux.eq_def]
    simp only [List.isEmpty_eq_true, hne, if_false, h1, Bool.false_eq_true]
    rw [dif_neg not_false, ih h2]

/-- C7: namespace handling of `from_xml`.
First conjunct: decoding with no explicit default namespace equals
decoding with the inferred one passed explicitly (the inference is used
exactly when the argument is `None`).
Second: the inferred namespace is the document's first declared
namespace URI — the `ns0` entry of the prefix dict that the
re-serialization assigns in order of first use — or `''` when the
document declares none.
Third: the namespace prefix `\x7bns\x7d` is stripped from a qualified tag
before any comparison (`str(tag).replace(...)` removes it).
Fourth: the branch a child element is dispatched to depends on its tag
only through the stripped tag name. -/
theorem c7_namespace_inference_and_stripping :
    (∀ (fmt : Formatter) (cls : ClassDef) (e : XmlElement),
      fromXml fmt cls e none = fromXml fmt cls e (some (inferredNamespace e)))
    ∧ (∀ e : XmlElement,
      inferredNamespace e = ((declaredNamespaces e).head?).getD "")
    ∧ (∀ (ns t : String),
      strContains t ("\x7b" ++ ns ++ "\x7d") = false →
      stripNs ns ("\x7b" ++ ns ++ "\x7d" ++ t) = t)
    ∧ (∀ (fmt : Formatter) (cls : ClassDef) (ns t1 t2 : String),
      stripNs ns t1 = stripNs ns t2 →
      childBranch fmt cls ns t1 = childBranch fmt cls ns t2) := by
  refine ⟨fun fmt cls e => rfl, fun e => ?_, fun ns t h => ?_, fun fmt cls ns t1 t2 h => ?_⟩
  · unfold inferredNamespace nsEvents pyDictGet
    cases hd : declaredNamespaces e with
    | nil => simp
    | cons u rest =>
      simp [List.enum_cons, List.find?,
        show (("ns" ++ toString 0) == "ns0") = true from by decide]
  · have hne : ("\x7b" ++ ns ++ "\x7d").data ≠ [] := by
      simp [String.data_append]
    unfold stripNs pyReplace
    rw [if_neg (by simpa using hne)]
    have hdata : ("\x7b" ++ ns ++ "\x7d" ++ t).data
        = ("\x7b" ++ ns ++ "\x7d").data ++ t.data := by
      simp [String.data_append]
    rw [hdata, replAux_cons_prefix _ _ hne,
      replAux_no_occurrence _ _ hne (by simpa [strContains] using h)]
  · unfold childBranch
    rw [h]

/-- Witness for C7: a document qualified with `http://x`. -/
theorem c7_namespace_inference_and_stripping_witness :
    fromXml idFormatter dictBookCls
        ⟨"\x7bhttp://x\x7dbook", [], none,
          [⟨"\x7bhttp://x\x7dtitle", [], some "T", []⟩]⟩ none
      = fromXml idFormatter dictBookCls
        ⟨"\x7bhttp://x\x7dbook", [], none,
          [⟨"\x7bhttp://x\x7dtitle", [], some "T", []⟩]⟩
        (some (inferredNamespace
          ⟨"\x7bhttp://x\x7dbook", [], none,
            [⟨"\x7bhttp://x\x7dtitle", [], some "T", []⟩]⟩))
    ∧ inferredNamespace
        ⟨"\x7bhttp://x\x7dbook", [], none,
          [⟨"\x7bhttp://x\x7dtitle", [], some "T", []⟩]⟩
      = ((declaredNamespaces
          ⟨"\x7bhttp://x\x7dbook", [], none,
            [⟨"\x7bhttp://x\x7dtitle", [], some "T", []⟩]⟩).head?).getD ""
    ∧ stripNs "http://x" ("\x7b" ++ "http://x" ++ "\x7d" ++ "title") = "title" :=
  ⟨c7_namespace_inference_and_stripping.1 idFormatter dictBookCls _,
   c7_namespace_inference_and_stripping.2.1 _,
   c7_namespace_inference_and_stripping.2.2.1 "http://x" "title" (by decide)⟩

/-! ### Supporting lemmas for the JSON round-trip theorem -/

theorem pyTail_underscore (f : String) : pyTail ("_" ++ f) = f := by
  unfold pyTail
  rw [String.data_append]
  rfl

theorem attach_map_fst {α β} (l : List α) (f : α → β) :
    l.attach.map (fun x => f x.1) = l.map f :=
  List.attach_map_val l f

theorem pyDictHas_append {α} (a b : List (String × α)) (k : String) :
    pyDictHas (a ++ b) k = (pyDictHas a k || pyDictHas b k) := by
  unfold pyDictHas
  exact List.any_append

theorem pyDictSet_fresh {α} (d : List (String × α)) (k : String) (v : α)
    (h : pyDictHas d k = false) : pyDictSet d k v = d ++ [(k, v)] := by
  unfold pyDictSet
  rw [h]
  rfl

theorem pyDictDel_append {α} (a b : List (String × α)) (k : String) :
    pyDictDel (a ++ b) k = pyDictDel a k ++ pyDictDel b k := by
  unfold pyDictDel
  exact List.filter_append a b

theorem pyDictDel_of_not_has {α} (d : List (String × α)) (k : String)
    (h : pyDictHas d k = false) : pyDictDel d k = d := by
  induction d with
  | nil => rfl
  | cons a rest ih =>
    unfold pyDictHas at h ih
    rw [List.any_cons, Bool.or_eq_false_iff] at h
    unfold pyDictDel at ih ⊢
    rw [List.filter_cons]
    have : (a.1 != k) = true := by
      simp only [bne, h.1, Bool.not_false]
    rw [this, ih h.2]
    simp

theorem pyDictDel_cons_self {α} (k : String) (v : α) (t : List (String × α)) :
    pyDictDel ((k, v) :: t) k = pyDictDel t k := by
  unfold pyDictDel
  rw [List.filter_cons]
  simp

theorem pyDictGet_nodup_mem {α} (d : List (String × α)) (p : String × α)
    (hmem : p ∈ d) (hnd : (d.map (·.1)).Nodup) : pyDictGet d p.1 = some p.2 := by
  induction d with
  | nil => cases hmem
  | cons a rest ih =>
    rw [List.map_cons, List.nodup_cons] at hnd
    rcases List.mem_cons.mp hmem with h | h
    · subst h
      unfold pyDictGet
      rw [List.find?_cons]
      simp
    · have hne : p.1 ≠ a.1 := by
        intro he
        exact hnd.1 (he ▸ List.mem_map_of_mem (·.1) h)
      unfold pyDictGet at ih ⊢
      rw [List.find?_cons]
      have : (a.1 == p.1) = false := by
        simp [BEq.beq]
        exact fun he => hne he.symm
      rw [this]
      exact ih h hnd.2

theorem encodeJson_vBool (reg : Registry) (fmt : Formatter) (b : Bool) :
    encodeJson reg fmt (.vBool b) = .jbool b := by
  rw [encodeJson.eq_def]

theorem encodeJson_vInt (reg : Registry) (fmt : Formatter) (n : Int) :
    encodeJson reg fmt (.vInt n) = .jint n := by
  rw [encodeJson.eq_def]

theorem encodeJson_vStr (reg : Registry) (fmt : Formatter) (s : String) :
    encodeJson reg fmt (.vStr s) = .jstr s := by
  rw [encodeJson.eq_def]

theorem encodeJson_vList (reg : Registry) (fmt : Formatter) (xs : List PyVal) :
    encodeJson reg fmt (.vList xs) = .jarr (xs.map (encodeJson reg fmt)) := by
  rw [encodeJson.eq_def]
  exact congrArg JValue.jarr (attach_map_fst xs (encodeJson reg fmt))

theorem encodeJson_vObj (reg : Registry) (fmt : Formatter) (m c : String)
    (dict : List (String × PyVal)) :
    encodeJson reg fmt (.vObj m c dict)
      = .jobj (jsonAssembleDict (dict.map fun kv =>
          jsonDefaultEntry fmt (Registry.props reg (m ++ "." ++ c)) kv.1 kv.2
            (encodeJson reg fmt kv.2))) := by
  rw [encodeJson.eq_def]
  exact congrArg (fun l => JValue.jobj (jsonAssembleDict l))
    (attach_map_fst dict fun kv =>
      jsonDefaultEntry fmt (Registry.props reg (m ++ "." ++ c)) kv.1 kv.2
        (encodeJson reg fmt kv.2))

theorem jvalToPy_jbool (b : Bool) : jvalToPy (.jbool b) = .vBool b := by
  rw [jvalToPy.eq_def]

theorem jvalToPy_jint (n : Int) : jvalToPy (.jint n) = .vInt n := by
  rw [jvalToPy.eq_def]

theorem jvalToPy_jstr (s : String) : jvalToPy (.jstr s) = .vStr s := by
  rw [jvalToPy.eq_def]

theorem jvalToPy_jarr (xs : List JValue) :
    jvalToPy (.jarr xs) = .vList (xs.map jvalToPy) := by
  rw [jvalToPy.eq_def]
  exact congrArg PyVal.vList (attach_map_fst xs jvalToPy)

/-- Parsing back the encoding of a primitive-fragment value restores
it. -/
theorem jvalToPy_encode_prim (reg : Registry) (fmt : Formatter) (v : PyVal)
    (h : jsonPrimVal v = true) : jvalToPy (encodeJson reg fmt v) = v := by
  cases v with
  | vBool b => rw [encodeJson_vBool, jvalToPy_jbool]
  | vInt n => rw [encodeJson_vInt, jvalToPy_jint]
  | vStr s => rw [encodeJson_vStr, jvalToPy_jstr]
  | vList xs =>
    rw [encodeJson_vList, jvalToPy_jarr, List.map_map]
    unfold jsonPrimVal at h
    rw [List.all_eq_true] at h
    have : xs.map (jvalToPy ∘ encodeJson reg fmt) = xs.map id := by
      apply List.map_congr_left
      intro x hx
      have hx' := h x hx
      cases x with
      | vBool b => exact (congrArg _ (encodeJson_vBool reg fmt b)).trans (jvalToPy_jbool b)
      | vInt n => exact (congrArg _ (encodeJson_vInt reg fmt n)).trans (jvalToPy_jint n)
      | vStr s => exact (congrArg _ (encodeJson_vStr reg fmt s)).trans (jvalToPy_jstr s)
      | vNone => simp at hx'
      | vEnum a b => simp at hx'
      | vList a => simp at hx'
      | vSet a => simp at hx'
      | vDict a => simp at hx'
      | vObj a b c => simp at hx'
    rw [this, List.map_id]
  | vNone => simp [jsonPrimVal] at h
  | vEnum a b => simp [jsonPrimVal] at h
  | vSet a => simp [jsonPrimVal] at h
  | vDict a => simp [jsonPrimVal] at h
  | vObj a b c => simp [jsonPrimVal] at h

/-- Folding `d.update` steps over entries with pairwise-distinct fresh
keys appends them in order. -/
theorem jsonAssembleDict_nodup (ents : List (String × JValue)) :
    ∀ (acc : List (String × JValue)),
      (ents.map (·.1)).Nodup →
      (∀ e ∈ ents, pyDictHas acc e.1 = false) →
      List.foldl jsonAssembleStep acc (ents.map some) = acc ++ ents := by
  induction ents with
  | nil =>
    intro acc _ _
    simp
  | cons e rest ih =>
    intro acc hnd hfresh
    rw [List.map_cons, List.nodup_cons] at hnd
    rw [List.map_cons, List.foldl_cons]
    have hstep : jsonAssembleStep acc (some e) = acc ++ [e] := by
      unfold jsonAssembleStep
      exact pyDictSet_fresh acc e.1 e.2 (hfresh e (List.mem_cons_self e rest))
    rw [hstep, ih (acc ++ [e]) hnd.2]
    · rw [List.append_assoc]
      rfl
    · intro r hr
      rw [pyDictHas_append, Bool.or_eq_false_iff]
      refine ⟨hfresh r (List.mem_cons_of_mem e hr), ?_⟩
      have hne : e.1 ≠ r.1 := by
        intro he
        exact hnd.1 (he ▸ List.mem_map_of_mem (·.1) hr)
      unfold pyDictHas
      simp [BEq.beq]
      exact hne

/-- The JSON object encoder on a primitive-fragment object: every
property is retained under its doubly-formatter-encoded name, values
encoded recursively. -/
theorem encodeJson_prim_obj (reg : Registry) (fmt : Formatter) (m c : String)
    (fs : List (String × PyVal))
    (hprops : ∀ p ∈ fs, ∃ pi : SerializableProperty,
      pyDictGet (Registry.props reg (m ++ "." ++ c)) p.1 = some pi
        ∧ pi.customName .json = none ∧ pi.customType = none)
    (hname : ∀ p ∈ fs,
      startsWithUnderscore p.1 = false ∧ strContains p.1 "__" = false)
    (hprim : ∀ p ∈ fs, jsonPrimVal p.2 = true)
    (hkeys : (fs.map fun p => fmt.encode (fmt.encode p.1)).Nodup) :
    encodeJson reg fmt (.vObj m c (fs.map fun p => ("_" ++ p.1, p.2)))
      = .jobj (fs.map fun p =>
          (fmt.encode (fmt.encode p.1), encodeJson reg fmt p.2)) := by
  rw [encodeJson_vObj, List.map_map]
  simp only [Function.comp_def]
  have hent : (fs.map fun p =>
        jsonDefaultEntry fmt (Registry.props reg (m ++ "." ++ c))
          ("_" ++ p.1) p.2 (encodeJson reg fmt p.2))
      = fs.map fun p =>
          some (fmt.encode (fmt.encode p.1), encodeJson reg fmt p.2) := by
    apply List.map_congr_left
    intro p hp
    obtain ⟨pn, pv⟩ := p
    obtain ⟨pi, hlook, hcn, hct⟩ := hprops (pn, pv) hp
    obtain ⟨hsw, hsc⟩ := hname (pn, pv) hp
    have hpv := hprim (pn, pv) hp
    simp only at hlook hcn hct hsw hsc hpv ⊢
    unfold jsonDefaultEntry
    cases pv with
    | vNone => simp [jsonPrimVal] at hpv
    | vEnum a b => simp [jsonPrimVal] at hpv
    | vSet a => simp [jsonPrimVal] at hpv
    | vDict a => simp [jsonPrimVal] at hpv
    | vObj a b cc => simp [jsonPrimVal] at hpv
    | vBool b =>
      simp only [pyTail_underscore, hsw, hsc, Bool.or_self, Bool.false_eq_true,
        if_false, hlook, hcn, hct]
    | vInt n =>
      simp only [pyTail_underscore, hsw, hsc, Bool.or_self, Bool.false_eq_true,
        if_false, hlook, hcn, hct]
    | vStr s =>
      simp only [pyTail_underscore, hsw, hsc, Bool.or_self, Bool.false_eq_true,
        if_false, hlook, hcn, hct]
    | vList xs =>
      simp only [pyTail_underscore, hsw, hsc, Bool.or_self, Bool.false_eq_true,
        if_false, hlook, hcn, hct]
  rw [hent]
  unfold jsonAssembleDict
  rw [show (fs.map fun p =>
      some (fmt.encode (fmt.encode p.1), encodeJson reg fmt p.2))
    = (fs.map fun p =>
      (fmt.encode (fmt.encode p.1), encodeJson reg fmt p.2)).map some by
    rw [List.map_map]
    rfl]
  rw [jsonAssembleDict_nodup _ []
    (by rw [List.map_map]; exact hkeys)
    (by intro e he; rfl)]
  rfl

/-- Keys determine entries in a dict with `Nodup` keys. -/
theorem nodup_keys_pair_eq {α} (fs : List (String × α))
    (hnd : (fs.map (·.1)).Nodup) :
    ∀ p ∈ fs, ∀ q ∈ fs, p.1 = q.1 → p = q := by
  induction fs with
  | nil => intro p hp; cases hp
  | cons a rest ih =>
    rw [List.map_cons, List.nodup_cons] at hnd
    intro p hp q hq he
    rcases List.mem_cons.mp hp with h1 | h1 <;> rcases List.mem_cons.mp hq with h2 | h2
    · rw [h1, h2]
    · subst h1
      exact absurd (he ▸ List.mem_map_of_mem (·.1) h2) hnd.1
    · subst h2
      exact absurd (he ▸ List.mem_map_of_mem (·.1) h1) hnd.1
    · exact ih hnd.2 p h1 q h2 he

/-- The trace of the key-normalization loop of `_from_json` on data
whose keys are the doubly-encoded field names: each original pair is
deleted and re-inserted under its decoded (original) name, in order.
`done` is the already-normalized prefix of the working dict. -/
theorem fromJsonStep1_loop (fmt : Formatter) (cls : ClassDef)
    (hrem : cls.jsonKeyRemovals = []) (hkm : cls.keyMappings = [])
    (E : String → String) :
    ∀ (fs2 : List (String × PyVal)) (done : List (String × PyVal)),
      (∀ p ∈ fs2, fmt.decode (E p.1) = p.1) →
      (∀ p ∈ fs2, ∀ q ∈ fs2, E p.1 = q.1 → p.1 = q.1) →
      ((fs2.map (·.1)).Nodup) →
      (∀ d ∈ done, ∀ p ∈ fs2, d.1 ≠ E p.1 ∧ d.1 ≠ p.1) →
      List.foldl (fromJsonStep1Entry fmt cls)
        ((fs2.map fun p => (E p.1, p.2)) ++ done)
        (fs2.map fun p => (E p.1, p.2))
      = done ++ fs2 := by
  intro fs2
  induction fs2 with
  | nil =>
    intro done _ _ _ _
    simp
  | cons p rest ih =>
    intro done h1 h3 h4 h5
    rw [List.map_cons, List.nodup_cons] at h4
    have hdecp := h1 p (List.mem_cons_self p rest)
    -- the head iteration
    have hdelrest : pyDictHas (rest.map fun q => (E q.1, q.2)) (E p.1) = false := by
      unfold pyDictHas
      rw [List.any_eq_false]
      intro x hx
      rcases List.mem_map.mp hx with ⟨q, hq, hqe⟩
      rw [← hqe]
      simp [BEq.beq]
      intro he
      have : q.1 = p.1 := by
        rw [← h1 q (List.mem_cons_of_mem p hq), he]
        exact hdecp
      exact absurd (this ▸ List.mem_map_of_mem (·.1) hq) h4.1
    have hdeldone : pyDictHas done (E p.1) = false := by
      unfold pyDictHas
      rw [List.any_eq_false]
      intro d hd
      simp [BEq.beq]
      exact (h5 d hd p (List.mem_cons_self p rest)).1
    have hsetrest : pyDictHas (rest.map fun q => (E q.1, q.2)) p.1 = false := by
      unfold pyDictHas
      rw [List.any_eq_false]
      intro x hx
      rcases List.mem_map.mp hx with ⟨q, hq, hqe⟩
      rw [← hqe]
      simp [BEq.beq]
      intro he
      have : q.1 = p.1 :=
        h3 q (List.mem_cons_of_mem p hq) p (List.mem_cons_self p rest) he
      exact absurd (this ▸ List.mem_map_of_mem (·.1) hq) h4.1
    have hsetdone : pyDictHas done p.1 = false := by
      unfold pyDictHas
      rw [List.any_eq_false]
      intro d hd
      simp [BEq.beq]
      exact (h5 d hd p (List.mem_cons_self p rest)).2
    have hstep : fromJsonStep1Entry fmt cls
        (((p :: rest).map fun q => (E q.1, q.2)) ++ done) (E p.1, p.2)
        = (rest.map fun q => (E q.1, q.2)) ++ (done ++ [p]) := by
      unfold fromJsonStep1Entry
      rw [hrem, hkm]
      simp only [hdecp]
      rw [if_neg (show ¬(([] : List String).contains (E p.1) = true)
        from fun h => Bool.false_ne_true h)]
      rw [if_neg (show ¬(pyValuesContain [] p.1 = true)
        from fun h => Bool.false_ne_true h)]
      rw [List.map_cons, List.cons_append, pyDictDel_cons_self,
        pyDictDel_append,
        pyDictDel_of_not_has _ _ hdelrest, pyDictDel_of_not_has _ _ hdeldone,
        pyDictSet_fresh _ _ _ (by rw [pyDictHas_append, hsetrest, hsetdone]; rfl)]
      rw [List.append_assoc]
    rw [List.map_cons, List.foldl_cons]
    rw [show ((p :: rest).map fun q => (E q.1, q.2))
        = (E p.1, p.2) :: (rest.map fun q => (E q.1, q.2)) from rfl] at hstep
    rw [hstep]
    rw [ih (done ++ [p]) (fun q hq => h1 q (List.mem_cons_of_mem p hq))
      (fun a ha b hb => h3 a (List.mem_cons_of_mem p ha) b (List.mem_cons_of_mem p hb))
      h4.2 ?_]
    · rw [List.append_assoc]
      rfl
    · intro d hd q hq
      rcases List.mem_append.mp hd with hdo | hdp
      · exact h5 d hdo q (List.mem_cons_of_mem p hq)
      · rw [List.mem_singleton.mp hdp]
        constructor
        · intro he
          have : q.1 = p.1 :=
            h3 q (List.mem_cons_of_mem p hq) p (List.mem_cons_self p rest) he.symm
          exact absurd (this ▸ List.mem_map_of_mem (·.1) hq) h4.1
        · intro he
          exact absurd (he ▸ List.mem_map_of_mem (·.1) hq) h4.1

/-- The value pass is the identity when the class has no data class
mappings and no array configuration. -/
theorem fromJsonStep2_id (cls : ClassDef)
    (hdcm : cls.dataClassMappings = []) (hacf : cls.arrayConfig = []) :
    ∀ d, fromJsonStep2 cls d = .ok d := by
  intro d
  induction d with
  | nil => rfl
  | cons kv rest ih =>
    unfold fromJsonStep2
    have hval : fromJsonValue cls kv.1 kv.2 = .ok kv.2 := by
      unfold fromJsonValue
      rw [hdcm, hacf]
      rfl
    rw [hval, ih]

/-- The canonical constructor on a kwargs dict that is exactly the
field list reconstructs the instance `__dict__`. -/
theorem pyCtor_exact (cls : ClassDef) (fs : List (String × PyVal))
    (hfields : cls.fields = fs.map (·.1))
    (hnd : (fs.map (·.1)).Nodup) :
    pyCtor cls fs
      = .ok (.vObj cls.module cls.name (fs.map fun p => ("_" ++ p.1, p.2))) := by
  unfold pyCtor
  have h1 : fs.find? (fun p => !(cls.fields.contains p.1)) = none := by
    rw [List.find?_eq_none]
    intro p hp
    rw [hfields]
    simp
    exact ⟨p.2, hp⟩
  have h2 : cls.fields.find? (fun f => !(pyDictHas fs f)) = none := by
    rw [List.find?_eq_none]
    intro f hf
    rw [hfields] at hf
    rcases List.mem_map.mp hf with ⟨p, hp, hpe⟩
    subst hpe
    simp
    unfold pyDictHas
    rw [List.any_eq_true]
    exact ⟨p, hp, by simp⟩
  rw [h1, h2, hfields, List.map_map]
  have h3 : (fs.map ((fun f => ("_" ++ f, (pyDictGet fs f).getD PyVal.vNone)) ∘ (·.1)))
      = fs.map fun p => ("_" ++ p.1, p.2) := by
    apply List.map_congr_left
    intro p hp
    simp only [Function.comp_def]
    rw [pyDictGet_nodup_mem fs p hp hnd]
    rfl
  rw [h3]

/-- C1 (amended): round-trip on the primitive fragment.  For a
registered type whose properties all lie in the primitive JSON
fragment (`bool`/`int`/`str` or lists of such), with no custom names
and no custom types in the registry, whose class carries empty legacy
configuration hooks, and whose formatter satisfies
`decode (encode (encode f)) = f` on the property names (the object
encoder applies the formatter twice) without colliding with other
property names, `from_json(json.loads(as_json(o)))` rebuilds an object
field-wise equal to `o`. -/
theorem c1_json_roundtrip_primitives (reg : Registry) (fmt : Formatter)
    (m c : String) (fs : List (String × PyVal)) (cls : ClassDef)
    (hmod : cls.module = m) (hnamec : cls.name = c)
    (hfields : cls.fields = fs.map (·.1))
    (hrem : cls.jsonKeyRemovals = []) (hkm : cls.keyMappings = [])
    (hdcm : cls.dataClassMappings = []) (hacf : cls.arrayConfig = [])
    (hprops : ∀ p ∈ fs, ∃ pi : SerializableProperty,
      pyDictGet (Registry.props reg (m ++ "." ++ c)) p.1 = some pi
        ∧ pi.customName .json = none ∧ pi.customType = none)
    (hname : ∀ p ∈ fs,
      startsWithUnderscore p.1 = false ∧ strContains p.1 "__" = false)
    (hprim : ∀ p ∈ fs, jsonPrimVal p.2 = true)
    (hdec : ∀ p ∈ fs, fmt.decode (fmt.encode (fmt.encode p.1)) = p.1)
    (hcross : ∀ p ∈ fs, ∀ q ∈ fs, fmt.encode (fmt.encode p.1) = q.1 → p.1 = q.1)
    (hnd : (fs.map (·.1)).Nodup) :
    jsonRoundTrip reg fmt cls (.vObj m c (fs.map fun p => ("_" ++ p.1, p.2)))
      = .ok (.vObj m c (fs.map fun p => ("_" ++ p.1, p.2))) := by
  have hkeys : (fs.map fun p => fmt.encode (fmt.encode p.1)).Nodup := by
    rw [show (fs.map fun p => fmt.encode (fmt.encode p.1))
        = (fs.map (·.1)).map fun f => fmt.encode (fmt.encode f) by
      rw [List.map_map]
      rfl]
    apply List.Nodup.map_on ?_ hnd
    intro x hx y hy he
    rcases List.mem_map.mp hx with ⟨p, hp, hpe⟩
    rcases List.mem_map.mp hy with ⟨q, hq, hqe⟩
    subst hpe hqe
    rw [← hdec p hp, he, hdec q hq]
  unfold jsonRoundTrip
  rw [encodeJson_prim_obj reg fmt m c fs hprops hname hprim hkeys]
  show fromJson fmt cls
      ((fs.map fun p => (fmt.encode (fmt.encode p.1), encodeJson reg fmt p.2)).map
        fun q => (q.1, jvalToPy q.2)) = _
  rw [List.map_map]
  have hdata : (fs.map ((fun q => (q.1, jvalToPy q.2))
        ∘ (fun p => (fmt.encode (fmt.encode p.1), encodeJson reg fmt p.2))))
      = fs.map fun p => (fmt.encode (fmt.encode p.1), p.2) := by
    apply List.map_congr_left
    intro p hp
    simp only [Function.comp_def]
    rw [jvalToPy_encode_prim reg fmt p.2 (hprim p hp)]
  rw [hdata]
  unfold fromJson fromJsonStep1
  have hloop := fromJsonStep1_loop fmt cls hrem hkm
    (fun f => fmt.encode (fmt.encode f)) fs []
    (fun p hp => hdec p hp)
    (fun p hp q hq => hcross p hp q hq)
    hnd
    (fun d hd => absurd hd (List.not_mem_nil d))
  rw [List.append_nil] at hloop
  rw [hloop, List.nil_append]
  rw [fromJsonStep2_id cls hdcm hacf fs]
  show pyCtor cls fs = _
  rw [pyCtor_exact cls fs hfields hnd, hmod, hnamec]

/-- Witness for C1 (amended): the two-field primitive `Book` with the
identity formatter round-trips. -/
theorem c1_json_roundtrip_primitives_witness :
    jsonRoundTrip primBookReg idFormatter primBookCls
      (.vObj "m" "Book" [("_id", .vInt 3), ("_title", .vStr "x")])
      = .ok (.vObj "m" "Book" [("_id", .vInt 3), ("_title", .vStr "x")]) := by
  have h := c1_json_roundtrip_primitives primBookReg idFormatter "m" "Book"
    [("id", .vInt 3), ("title", .vStr "x")] primBookCls
    rfl rfl rfl rfl rfl rfl rfl
    (by
      intro p hp
      rcases List.mem_cons.mp hp with h | h
      · exact ⟨⟨"id", [], .intT, none, false, none⟩, by rw [h]; rfl, rfl, rfl⟩
      · rcases List.mem_cons.mp h with h2 | h2
        · exact ⟨⟨"title", [], .strT, none, false, none⟩, by rw [h2]; rfl, rfl, rfl⟩
        · cases h2)
    (by decide) (by decide) (by decide) (by decide) (by decide)
  exact h

end Serializable
